import Mathlib

/-!
Gradient-descent optimizers (`include/optimizer.hpp`, `include/types.hpp`, `src/main.cpp`)

Shallow embedding of the three optimizer templates of namespace `optim` and of the
recording callback that `main` attaches to them.

* The optimizers are generic in the arithmetic of `double`: a type `K` with `0`, `+`, `-`, `*`
  and a decidable `<`. Exact arithmetic (ordered fields, the reals with `Real.sqrt`) and
  IEEE-754 binary64 (`Double`, with rounding, overflow, underflow and NaN) are both instances.
* `std::sqrt` comes from `<cmath>`, not from this repository: it is a parameter `sqrt`.
* `std::size_t` counters are natural numbers: `iter` only grows while `iter < max_iters`,
  so it never exceeds the (representable) budget and cannot wrap.
* The `Gradient&&` callable may carry state (the lambdas of `main` push to a vector), so a
  callback is a state-passing function `Vec2 K → σ → Vec2 K × σ`.
* Each `for (; iter < max_iters; ++iter)` loop is a recursive function on a fuel counter that
  still tests the loop guard; `max_iters` units of fuel are shown to be enough.
-/

namespace optim

/-! ## `types.hpp` -/

/-- The `Vec2` struct. -/
structure Vec2 (K : Type) where
  x : K
  y : K
deriving DecidableEq, Repr

/-- The `OptimizerResult` struct. -/
structure OptimizerResult (K : Type) where
  final_point : Vec2 K
  iterations : Nat
  final_grad_norm : K
deriving DecidableEq, Repr

/-! ## `optimizer.hpp` -/

/-- Local variables of `gradient_descent`, together with the state of the callback. -/
structure DescentVars (K σ : Type) where
  current : Vec2 K
  iter : Nat
  grad_norm_sq : K
  env : σ

/-- Local variables of `gradient_descent_momentum` and of `nesterov_momentum`, together with
the state of the callback. -/
structure MomentumVars (K σ : Type) where
  current : Vec2 K
  velocity : Vec2 K
  iter : Nat
  grad_norm_sq : K
  env : σ

section Loops

variable {K σ : Type}

/-- The loop of `gradient_descent` (optimizer.hpp, lines 24-34). -/
def gradient_descent_loop [Add K] [Sub K] [Mul K] [LT K] [∀ a b : K, Decidable (a < b)]
    (alpha : K) (max_iters : Nat) (tol : K)
    (gradient : Vec2 K → σ → Vec2 K × σ) : Nat → DescentVars K σ → DescentVars K σ
  | 0, s => s
  | fuel + 1, s =>
    if s.iter < max_iters then
      let call := gradient s.current s.env
      let grad := call.1
      let grad_norm_sq := grad.x * grad.x + grad.y * grad.y
      if grad_norm_sq < tol * tol then
        { current := s.current, iter := s.iter, grad_norm_sq := grad_norm_sq, env := call.2 }
      else
        gradient_descent_loop alpha max_iters tol gradient fuel
          { current := ⟨s.current.x - alpha * grad.x, s.current.y - alpha * grad.y⟩,
            iter := s.iter + 1,
            grad_norm_sq := grad_norm_sq,
            env := call.2 }
    else s

/-- The function `gradient_descent` (optimizer.hpp, lines 11-41); the second component is the
state in which the run leaves the callback. -/
def gradient_descent [Zero K] [Add K] [Sub K] [Mul K] [LT K] [∀ a b : K, Decidable (a < b)]
    (sqrt : K → K) (initial : Vec2 K) (alpha : K) (max_iters : Nat) (tol : K)
    (gradient : Vec2 K → σ → Vec2 K × σ) (env : σ) : OptimizerResult K × σ :=
  let s := gradient_descent_loop alpha max_iters tol gradient max_iters
    { current := initial, iter := 0, grad_norm_sq := 0, env := env }
  ({ final_point := s.current, iterations := s.iter, final_grad_norm := sqrt s.grad_norm_sq },
    s.env)

/-- The loop of `gradient_descent_momentum` (optimizer.hpp, lines 59-72). -/
def gradient_descent_momentum_loop [Add K] [Sub K] [Mul K] [LT K] [∀ a b : K, Decidable (a < b)]
    (alpha beta : K) (max_iters : Nat) (tol : K)
    (gradient : Vec2 K → σ → Vec2 K × σ) : Nat → MomentumVars K σ → MomentumVars K σ
  | 0, s => s
  | fuel + 1, s =>
    if s.iter < max_iters then
      let call := gradient s.current s.env
      let grad := call.1
      let grad_norm_sq := grad.x * grad.x + grad.y * grad.y
      if grad_norm_sq < tol * tol then
        { current := s.current, velocity := s.velocity, iter := s.iter,
          grad_norm_sq := grad_norm_sq, env := call.2 }
      else
        let velocity : Vec2 K :=
          ⟨beta * s.velocity.x - alpha * grad.x, beta * s.velocity.y - alpha * grad.y⟩
        gradient_descent_momentum_loop alpha beta max_iters tol gradient fuel
          { current := ⟨s.current.x + velocity.x, s.current.y + velocity.y⟩,
            velocity := velocity,
            iter := s.iter + 1,
            grad_norm_sq := grad_norm_sq,
            env := call.2 }
    else s

/-- The function `gradient_descent_momentum` (optimizer.hpp, lines 44-79). -/
def gradient_descent_momentum [Zero K] [Add K] [Sub K] [Mul K] [LT K] [∀ a b : K, Decidable (a < b)]
    (sqrt : K → K) (initial : Vec2 K) (alpha beta : K)
    (max_iters : Nat) (tol : K) (gradient : Vec2 K → σ → Vec2 K × σ) (env : σ) :
    OptimizerResult K × σ :=
  let s := gradient_descent_momentum_loop alpha beta max_iters tol gradient max_iters
    { current := initial, velocity := ⟨0, 0⟩, iter := 0, grad_norm_sq := 0, env := env }
  ({ final_point := s.current, iterations := s.iter, final_grad_norm := sqrt s.grad_norm_sq },
    s.env)

/-- The loop of `nesterov_momentum` (optimizer.hpp, lines 97-115). -/
def nesterov_momentum_loop [Add K] [Sub K] [Mul K] [LT K] [∀ a b : K, Decidable (a < b)]
    (alpha beta : K) (max_iters : Nat) (tol : K)
    (gradient : Vec2 K → σ → Vec2 K × σ) : Nat → MomentumVars K σ → MomentumVars K σ
  | 0, s => s
  | fuel + 1, s =>
    if s.iter < max_iters then
      let lookahead : Vec2 K :=
        ⟨s.current.x + beta * s.velocity.x, s.current.y + beta * s.velocity.y⟩
      let call := gradient lookahead s.env
      let grad := call.1
      let grad_norm_sq := grad.x * grad.x + grad.y * grad.y
      if grad_norm_sq < tol * tol then
        { current := s.current, velocity := s.velocity, iter := s.iter,
          grad_norm_sq := grad_norm_sq, env := call.2 }
      else
        let velocity : Vec2 K :=
          ⟨beta * s.velocity.x - alpha * grad.x, beta * s.velocity.y - alpha * grad.y⟩
        nesterov_momentum_loop alpha beta max_iters tol gradient fuel
          { current := ⟨s.current.x + velocity.x, s.current.y + velocity.y⟩,
            velocity := velocity,
            iter := s.iter + 1,
            grad_norm_sq := grad_norm_sq,
            env := call.2 }
    else s

/-- The function `nesterov_momentum` (optimizer.hpp, lines 82-122). -/
def nesterov_momentum [Zero K] [Add K] [Sub K] [Mul K] [LT K] [∀ a b : K, Decidable (a < b)]
    (sqrt : K → K) (initial : Vec2 K) (alpha beta : K)
    (max_iters : Nat) (tol : K) (gradient : Vec2 K → σ → Vec2 K × σ) (env : σ) :
    OptimizerResult K × σ :=
  let s := nesterov_momentum_loop alpha beta max_iters tol gradient max_iters
    { current := initial, velocity := ⟨0, 0⟩, iter := 0, grad_norm_sq := 0, env := env }
  ({ final_point := s.current, iterations := s.iter, final_grad_norm := sqrt s.grad_norm_sq },
    s.env)

/-! ## `main.cpp` -/

/-- The lambda `[&](Vec2 p){ path.push_back(p); return gfn(p); }` that `main` passes to each
optimizer (main.cpp, lines 117, 124, 131); the callback state is the vector `path`. -/
def recording (gfn : Vec2 K → Vec2 K) (p : Vec2 K) (path : List (Vec2 K)) :
    Vec2 K × List (Vec2 K) :=
  (gfn p, path ++ [p])

/-- The function `grad_quadratic` (main.cpp, lines 11-13). -/
def grad_quadratic [Mul K] [OfNat K 2]
    (p : Vec2 K) : Vec2 K :=
  ⟨2 * p.x, 2 * p.y⟩

/-- The function `grad_rosenbrock` (main.cpp, lines 14-16). -/
def grad_rosenbrock [LinearOrderedField K]
    (p : Vec2 K) : Vec2 K :=
  ⟨-2 * (1 - p.x) - 400 * p.x * (p.y - p.x * p.x), 200 * (p.y - p.x * p.x)⟩

/-- The function `grad_himmelblau` (main.cpp, lines 17-19). -/
def grad_himmelblau [LinearOrderedField K]
    (p : Vec2 K) : Vec2 K :=
  ⟨4 * p.x * (p.x * p.x + p.y - 11) + 2 * (p.x + p.y * p.y - 7),
    2 * (p.x * p.x + p.y - 11) + 4 * p.y * (p.x + p.y * p.y - 7)⟩

/-- The function `grad_beale` (main.cpp, lines 20-25). -/
def grad_beale [LinearOrderedField K]
    (p : Vec2 K) : Vec2 K :=
  ⟨-2 * (1.5 - p.x + p.x * p.y) * p.y - 2 * (2.25 - p.x + p.x * p.y * p.y) * p.y * p.y
      - 2 * (2.625 - p.x + p.x * p.y * p.y * p.y) * p.y * p.y * p.y,
    2 * (1.5 - p.x + p.x * p.y) * p.x + 4 * (2.25 - p.x + p.x * p.y * p.y) * p.x * p.y
      + 6 * (2.625 - p.x + p.x * p.y * p.y * p.y) * p.x * p.y * p.y⟩

/-- The string `stopping` that `record` prints (main.cpp, lines 58-60), as a function of the
result and of the `max_iters` and `tol` passed to `record`. -/
def record_stopping [LT K] [∀ a b : K, Decidable (a < b)]
    (res : OptimizerResult K) (max_iters : Nat) (tol : K) : String :=
  if res.iterations ≥ max_iters then "max iterations reached"
  else if res.final_grad_norm < tol then "tolerance reached"
  else "convergence"

/-- Squared Euclidean norm `g.x * g.x + g.y * g.y`, the quantity every loop compares with
`tol * tol`. -/
def normSq [Add K] [Mul K]
    (g : Vec2 K) : K :=
  g.x * g.x + g.y * g.y

/-- A callback that returns the pure gradient `gfn` and performs an arbitrary observation
`obs` on its own state (section 4.5 of the specification: a pure gradient operation that the
harness may wrap with an observation side effect). -/
def observed (gfn : Vec2 K → Vec2 K) (obs : Vec2 K → σ → σ) (p : Vec2 K) (env : σ) :
    Vec2 K × σ :=
  (gfn p, obs p env)

/-! ## Reference definitions, written from the wording of the specification -/

/-- Reference sequence of plain descent: `p 0 = initial`,
`p (i + 1) = p i - alpha * gradient (p i)`. -/
def descent_reference [Sub K] [Mul K]
    (alpha : K) (gfn : Vec2 K → Vec2 K) (initial : Vec2 K) : Nat → Vec2 K
  | 0 => initial
  | i + 1 =>
    let p := descent_reference alpha gfn initial i
    ⟨p.x - alpha * (gfn p).x, p.y - alpha * (gfn p).y⟩

/-- Reference recurrence of classical momentum, as pairs `(p i, v i)`: `p 0 = initial`,
`v 0 = (0, 0)`, `v (i + 1) = beta * v i - alpha * gradient (p i)`,
`p (i + 1) = p i + v (i + 1)`. -/
def momentum_reference [Zero K] [Add K] [Sub K] [Mul K]
    (alpha beta : K) (gfn : Vec2 K → Vec2 K) (initial : Vec2 K) :
    Nat → Vec2 K × Vec2 K
  | 0 => (initial, ⟨0, 0⟩)
  | i + 1 =>
    let p := (momentum_reference alpha beta gfn initial i).1
    let v := (momentum_reference alpha beta gfn initial i).2
    let w : Vec2 K := ⟨beta * v.x - alpha * (gfn p).x, beta * v.y - alpha * (gfn p).y⟩
    (⟨p.x + w.x, p.y + w.y⟩, w)

/-- Lookahead point `l = p + beta * v` of a pair `(p, v)`. -/
def lookahead_of [Add K] [Mul K]
    (beta : K) (pv : Vec2 K × Vec2 K) : Vec2 K :=
  ⟨pv.1.x + beta * pv.2.x, pv.1.y + beta * pv.2.y⟩

/-- Reference recurrence of Nesterov momentum, as pairs `(p i, v i)`: `p 0 = initial`,
`v 0 = (0, 0)`, `l i = p i + beta * v i`, `v (i + 1) = beta * v i - alpha * gradient (l i)`,
`p (i + 1) = p i + v (i + 1)`. -/
def nesterov_reference [Zero K] [Add K] [Sub K] [Mul K]
    (alpha beta : K) (gfn : Vec2 K → Vec2 K) (initial : Vec2 K) :
    Nat → Vec2 K × Vec2 K
  | 0 => (initial, ⟨0, 0⟩)
  | i + 1 =>
    let p := (nesterov_reference alpha beta gfn initial i).1
    let v := (nesterov_reference alpha beta gfn initial i).2
    let g := gfn (lookahead_of beta (p, v))
    let w : Vec2 K := ⟨beta * v.x - alpha * g.x, beta * v.y - alpha * g.y⟩
    (⟨p.x + w.x, p.y + w.y⟩, w)

/-- Rosenbrock objective as the claim writes it: `(1 - x)^2 + 100 * (y - x^2)^2`. -/
def rosenbrock [LinearOrderedField K]
    (x y : K) : K :=
  (1 - x) ^ 2 + 100 * (y - x ^ 2) ^ 2

/-- Himmelblau objective as the claim writes it: `(x^2 + y - 11)^2 + (x + y^2 - 7)^2`. -/
def himmelblau [LinearOrderedField K]
    (x y : K) : K :=
  (x ^ 2 + y - 11) ^ 2 + (x + y ^ 2 - 7) ^ 2

/-- Beale objective as the claim writes it:
`(1.5 - x + x*y)^2 + (2.25 - x + x*y^2)^2 + (2.625 - x + x*y^3)^2`. -/
def beale [LinearOrderedField K]
    (x y : K) : K :=
  (1.5 - x + x * y) ^ 2 + (2.25 - x + x * y ^ 2) ^ 2 + (2.625 - x + x * y ^ 3) ^ 2

/-- Integer numerators `(a i, b i)` of classical momentum on the quadratic bowl from `(2, 2)`
with `alpha = 1/100`, `beta = 9/10`: both coordinates of the point are `a i / 50^i` and both
coordinates of the velocity are `b i / 50^i` (proof device for exact evaluation). -/
def momentum_bowl_numerators : Nat → Int × Int
  | 0 => (2, 0)
  | i + 1 =>
    (49 * (momentum_bowl_numerators i).1 + 45 * (momentum_bowl_numerators i).2,
      45 * (momentum_bowl_numerators i).2 - (momentum_bowl_numerators i).1)

/-! ## A common shape for the three loops (proof device) -/

/-- Loop variables of the common shape: `pos` is whatever the variant carries between
iterations (the point, or the point and the velocity). -/
structure DriveVars (τ K σ : Type) where
  pos : τ
  iter : Nat
  grad_norm_sq : K
  env : σ

/-- Loop variables of the common shape on entry: no iteration done, `grad_norm_sq = 0.0`. -/
def DriveVars.start [Zero K]
    {τ : Type} (t : τ) (env : σ) : DriveVars τ K σ :=
  { pos := t, iter := 0, grad_norm_sq := 0, env := env }

/-- The control skeleton shared by the three loops: probe a point chosen by `probe`, stop
before updating when the squared norm is below `tol * tol`, otherwise apply `update`. -/
def drive [Add K] [Mul K] [LT K] [∀ a b : K, Decidable (a < b)]
    {τ : Type} (probe : τ → Vec2 K) (update : τ → Vec2 K → τ) (max_iters : Nat) (tol : K)
    (gradient : Vec2 K → σ → Vec2 K × σ) : Nat → DriveVars τ K σ → DriveVars τ K σ
  | 0, s => s
  | fuel + 1, s =>
    if s.iter < max_iters then
      if normSq (gradient (probe s.pos) s.env).1 < tol * tol then
        { pos := s.pos, iter := s.iter,
          grad_norm_sq := normSq (gradient (probe s.pos) s.env).1,
          env := (gradient (probe s.pos) s.env).2 }
      else
        drive probe update max_iters tol gradient fuel
          { pos := update s.pos (gradient (probe s.pos) s.env).1,
            iter := s.iter + 1,
            grad_norm_sq := normSq (gradient (probe s.pos) s.env).1,
            env := (gradient (probe s.pos) s.env).2 }
    else s

/-- One update of the common shape under a pure gradient. -/
def advance {τ : Type} (probe : τ → Vec2 K) (update : τ → Vec2 K → τ) (gfn : Vec2 K → Vec2 K)
    (t : τ) : τ :=
  update t (gfn (probe t))

/-- Number of updates the common shape performs within a budget of `n` iterations. -/
def runLength [Add K] [Mul K] [LT K] [∀ a b : K, Decidable (a < b)]
    {τ : Type} (probe : τ → Vec2 K) (update : τ → Vec2 K → τ)
    (gfn : Vec2 K → Vec2 K) (tol : K) : Nat → τ → Nat
  | 0, _ => 0
  | n + 1, t =>
    if normSq (gfn (probe t)) < tol * tol then 0
    else runLength probe update gfn tol n (advance probe update gfn t) + 1

/-- Update rule of plain descent. -/
def descent_update [Sub K] [Mul K]
    (alpha : K) (c g : Vec2 K) : Vec2 K :=
  ⟨c.x - alpha * g.x, c.y - alpha * g.y⟩

/-- Update rule of both momentum variants on the pair `(current, velocity)`. -/
def momentum_update [Add K] [Sub K] [Mul K]
    (alpha beta : K) (pv : Vec2 K × Vec2 K) (g : Vec2 K) : Vec2 K × Vec2 K :=
  (⟨pv.1.x + (beta * pv.2.x - alpha * g.x), pv.1.y + (beta * pv.2.y - alpha * g.y)⟩,
    ⟨beta * pv.2.x - alpha * g.x, beta * pv.2.y - alpha * g.y⟩)

/-- View of the variables of `gradient_descent` in the common shape. -/
def DescentVars.toDrive (s : DescentVars K σ) : DriveVars (Vec2 K) K σ :=
  { pos := s.current, iter := s.iter, grad_norm_sq := s.grad_norm_sq, env := s.env }

/-- View of the variables of the momentum variants in the common shape. -/
def MomentumVars.toDrive (s : MomentumVars K σ) : DriveVars (Vec2 K × Vec2 K) K σ :=
  { pos := (s.current, s.velocity), iter := s.iter, grad_norm_sq := s.grad_norm_sq,
    env := s.env }

/-- Forgetting the velocity. -/
def MomentumVars.toDescent (s : MomentumVars K σ) : DescentVars K σ :=
  { current := s.current, iter := s.iter, grad_norm_sq := s.grad_norm_sq, env := s.env }

end Loops

/-! ## IEEE-754 binary64

The arithmetic of `double` on the platforms the program targets: every finite value is an
integer multiple of `2^(-1074)`, each `+`, `-`, `*` and `std::sqrt` returns the exact result
rounded to nearest, ties to even, with overflow to an infinity and gradual underflow; `<`
and `<=` are false when an operand is NaN. The two zeros are identified and there is one NaN
(no operation of the program tells them apart), and each operation is rounded on its own (no
fused multiply-add). -/

/-- Least `j`, starting from the given one, with `n < 2^(2^j)` (at most `fuel` steps). -/
def log2Bits (n : Nat) : Nat → Nat → Nat
  | 0, j => j
  | fuel + 1, j => if n < 2 ^ 2 ^ j then j else log2Bits n fuel (j + 1)

/-- Largest `e + d` with `d < 2^j` and `2^(e + d) ≤ n`, found bit by bit. -/
def log2Search (n : Nat) : Nat → Nat → Nat
  | 0, e => e
  | j + 1, e => if 2 ^ (e + 2 ^ j) ≤ n then log2Search n j (e + 2 ^ j) else log2Search n j e

/-- Binary logarithm rounded down: for `n > 0` the `e` with `2^e ≤ n < 2^(e+1)`. -/
def ilog2 (n : Nat) : Nat :=
  log2Search n (log2Bits n 64 0) 0

/-- Nearest integer to `p / q` for naturals `p` and `q > 0`, ties to the even integer. -/
def roundHalfEven (p q : Nat) : Nat :=
  if 2 * (p % q) < q then p / q
  else if q < 2 * (p % q) then p / q + 1
  else if (p / q) % 2 = 0 then p / q
  else p / q + 1

/-- Binary exponent of the positive rational `p / q`: the `e` with `2^e ≤ p / q < 2^(e+1)`. -/
def binaryExponent (p q : Nat) : Int :=
  if ilog2 q ≤ ilog2 p then
    if q * 2 ^ (ilog2 p - ilog2 q) ≤ p then ((ilog2 p - ilog2 q : Nat) : Int)
    else ((ilog2 p - ilog2 q : Nat) : Int) - 1
  else
    if q ≤ p * 2 ^ (ilog2 q - ilog2 p) then -((ilog2 q - ilog2 p : Nat) : Int)
    else -((ilog2 q - ilog2 p : Nat) : Int) - 1

/-- Bits of the integer square root, from bit `k - 1` down to bit 0. -/
def isqrtAux (n : Nat) : Nat → Nat → Nat
  | 0, r => r
  | k + 1, r =>
    if (r + 2 ^ k) * (r + 2 ^ k) ≤ n then isqrtAux n k (r + 2 ^ k) else isqrtAux n k r

/-- Integer square root: the `r` with `r * r ≤ n < (r + 1) * (r + 1)`. -/
def isqrt (n : Nat) : Nat :=
  isqrtAux n (ilog2 n / 2 + 1) 0

/-- Values of binary64: one NaN, the two infinities, and the finite values, `fin k` standing
for `k * 2^(-1074)` with `|k| < 2^2098`. -/
inductive Double where
  | nan : Double
  | inf (negative : Bool) : Double
  | fin (k : Int) : Double
deriving DecidableEq, Repr

namespace Double

/-- The value `m * 2^e` for `e ≥ -1074` (a double when `|m| < 2^53` and it is below
`2^1024`); hexadecimal floating literals read this way. -/
def dyadic (m : Int) (e : Int) : Double :=
  fin (m * 2 ^ (e + 1074).toNat)

/-- The rational `p / q` (`q > 0`) rounded to nearest, ties to even: the quantum is `2^e` with
`e` the binary exponent of `|p / q|` (at least `-1022`) minus 52, and a rounded magnitude of
`2^1024` or more overflows. Decimal literals and the exact results of `+`, `-`, `*` are
rounded by it. -/
def ofRatio (p : Int) (q : Nat) : Double :=
  if p = 0 then fin 0
  else
    let e : Int := max (binaryExponent p.natAbs q) (-1022) - 52
    let n : Nat :=
      if 0 ≤ e then roundHalfEven p.natAbs (q * 2 ^ e.toNat)
      else roundHalfEven (p.natAbs * 2 ^ (-e).toNat) q
    let k : Nat := n * 2 ^ (e + 1074).toNat
    if 2 ^ 2098 ≤ k then inf (decide (p < 0))
    else if p < 0 then fin (-(k : Int)) else fin k

/-- Addition of binary64. -/
def add : Double → Double → Double
  | nan, _ => nan
  | _, nan => nan
  | inf s, inf t => if s = t then inf s else nan
  | inf s, fin _ => inf s
  | fin _, inf t => inf t
  | fin a, fin b => ofRatio (a + b) (2 ^ 1074)

/-- Negation of binary64. -/
def neg : Double → Double
  | nan => nan
  | inf s => inf (!s)
  | fin a => fin (-a)

/-- Subtraction of binary64. -/
def sub (a b : Double) : Double :=
  add a (neg b)

/-- Multiplication of binary64. -/
def mul : Double → Double → Double
  | nan, _ => nan
  | _, nan => nan
  | inf s, inf t => inf (xor s t)
  | inf s, fin b => if b = 0 then nan else inf (xor s (decide (b < 0)))
  | fin a, inf t => if a = 0 then nan else inf (xor (decide (a < 0)) t)
  | fin a, fin b => ofRatio (a * b) (2 ^ 2148)

/-- The comparison `<` of binary64. -/
def lt : Double → Double → Bool
  | nan, _ => false
  | _, nan => false
  | inf s, inf t => s && !t
  | inf s, fin _ => s
  | fin _, inf t => !t
  | fin a, fin b => decide (a < b)

/-- The comparison `<=` of binary64. -/
def le : Double → Double → Bool
  | nan, _ => false
  | _, nan => false
  | inf s, inf t => s || !t
  | inf s, fin _ => s
  | fin _, inf t => !t
  | fin a, fin b => decide (a ≤ b)

/-- Correctly rounded `std::sqrt`. For `k > 0` the root of `k * 2^(-1074)` has quantum `2^t`
with `t = ilog2 k / 2 - 589`, and its significand is the integer nearest to the square root
of `k * 2^(-1074) / 4^t`: the integer root `f` of the integer part, or `f + 1` when the
quotient exceeds `(f + 1/2)^2`. -/
def sqrt : Double → Double
  | nan => nan
  | inf s => if s then nan else inf false
  | fin k =>
    if k < 0 then nan
    else if k = 0 then fin 0
    else
      let t : Int := (ilog2 k.toNat : Int) / 2 - 589
      let x : Nat := k.toNat * 2 ^ (-(2 * t + 1074)).toNat / 2 ^ (2 * t + 1074).toNat
      let f : Nat := isqrt x
      let lhs : Nat := 4 * k.toNat * 2 ^ (-(2 * t + 1074)).toNat
      let rhs : Nat := (2 * f + 1) * (2 * f + 1) * 2 ^ (2 * t + 1074).toNat
      let n : Nat :=
        if lhs < rhs then f
        else if rhs < lhs then f + 1
        else if f % 2 = 0 then f else f + 1
      fin ((n * 2 ^ (t + 1074).toNat : Nat) : Int)

instance : Zero Double := ⟨fin 0⟩

instance : OfNat Double 2 := ⟨ofRatio 2 1⟩

instance : Add Double := ⟨add⟩

instance : Sub Double := ⟨sub⟩

instance : Mul Double := ⟨mul⟩

instance : LT Double := ⟨fun a b => lt a b = true⟩

instance : LE Double := ⟨fun a b => le a b = true⟩

instance (a b : Double) : Decidable (a < b) :=
  inferInstanceAs (Decidable (lt a b = true))

instance (a b : Double) : Decidable (a ≤ b) :=
  inferInstanceAs (Decidable (le a b = true))

end Double

/-! ## The loops have the common shape -/

section Shape

variable {K σ : Type} [Add K] [Sub K] [Mul K] [LT K] [∀ a b : K, Decidable (a < b)]

theorem gradient_descent_loop_toDrive (alpha : K) (max_iters : Nat) (tol : K)
    (gradient : Vec2 K → σ → Vec2 K × σ) (fuel : Nat) (s : DescentVars K σ) :
    (gradient_descent_loop alpha max_iters tol gradient fuel s).toDrive =
      drive id (descent_update alpha) max_iters tol gradient fuel s.toDrive := by
  induction fuel generalizing s with
  | zero => rfl
  | succ n ih =>
    simp only [gradient_descent_loop, drive, DescentVars.toDrive, id, normSq]
    split_ifs with h1 h2
    · rfl
    · exact ih _
    · rfl

theorem momentum_loop_toDrive (alpha beta : K) (max_iters : Nat) (tol : K)
    (gradient : Vec2 K → σ → Vec2 K × σ) (fuel : Nat) (s : MomentumVars K σ) :
    (gradient_descent_momentum_loop alpha beta max_iters tol gradient fuel s).toDrive =
      drive Prod.fst (momentum_update alpha beta) max_iters tol gradient fuel s.toDrive := by
  induction fuel generalizing s with
  | zero => rfl
  | succ n ih =>
    simp only [gradient_descent_momentum_loop, drive, MomentumVars.toDrive, normSq]
    split_ifs with h1 h2
    · rfl
    · exact ih _
    · rfl

theorem nesterov_loop_toDrive (alpha beta : K) (max_iters : Nat) (tol : K)
    (gradient : Vec2 K → σ → Vec2 K × σ) (fuel : Nat) (s : MomentumVars K σ) :
    (nesterov_momentum_loop alpha beta max_iters tol gradient fuel s).toDrive =
      drive (lookahead_of beta) (momentum_update alpha beta) max_iters tol gradient fuel
        s.toDrive := by
  induction fuel generalizing s with
  | zero => rfl
  | succ n ih =>
    simp only [nesterov_momentum_loop, drive, MomentumVars.toDrive, normSq, lookahead_of]
    split_ifs with h1 h2
    · rfl
    · exact ih _
    · rfl

end Shape

/-! ## Properties of the common shape -/

section Drive

variable {K σ τ : Type} [Add K] [Mul K] [LT K] [∀ a b : K, Decidable (a < b)]
variable (probe : τ → Vec2 K) (update : τ → Vec2 K → τ) (max_iters : Nat) (tol : K)

theorem drive_iter_le (gradient : Vec2 K → σ → Vec2 K × σ) (fuel : Nat) (s : DriveVars τ K σ)
    (h : s.iter ≤ max_iters) :
    (drive probe update max_iters tol gradient fuel s).iter ≤ max_iters := by
  induction fuel generalizing s with
  | zero => exact h
  | succ n ih =>
    simp only [drive]
    split_ifs with h1 h2
    · exact h
    · exact ih _ h1
    · exact h

theorem drive_tolerance (gradient : Vec2 K → σ → Vec2 K × σ) (fuel : Nat) (s : DriveVars τ K σ)
    (h : max_iters ≤ s.iter + fuel)
    (hlt : (drive probe update max_iters tol gradient fuel s).iter < max_iters) :
    (drive probe update max_iters tol gradient fuel s).grad_norm_sq < tol * tol := by
  induction fuel generalizing s with
  | zero =>
    simp only [drive] at hlt
    omega
  | succ n ih =>
    simp only [drive] at hlt ⊢
    split_ifs at hlt ⊢ with h1 h2
    · exact h2
    · exact ih _ (by simp only; omega) hlt
    · exact absurd hlt h1

theorem drive_fuel (gradient : Vec2 K → σ → Vec2 K × σ) (fuel more : Nat)
    (s : DriveVars τ K σ) (h : max_iters ≤ s.iter + fuel) (h2 : max_iters ≤ s.iter + more) :
    drive probe update max_iters tol gradient more s =
      drive probe update max_iters tol gradient fuel s := by
  induction fuel generalizing s more with
  | zero =>
    cases more with
    | zero => rfl
    | succ m =>
      have : ¬ s.iter < max_iters := by omega
      simp only [drive, this, if_false]
  | succ n ih =>
    cases more with
    | zero =>
      have : ¬ s.iter < max_iters := by omega
      simp only [drive, this, if_false]
    | succ m =>
      simp only [drive]
      split_ifs with h3 h4
      · rfl
      · exact ih m _ (by simp only; omega) (by simp only; omega)
      · rfl

theorem runLength_le (gfn : Vec2 K → Vec2 K) (n : Nat) (t : τ) :
    runLength probe update gfn tol n t ≤ n := by
  induction n generalizing t with
  | zero => exact Nat.le_refl 0
  | succ n ih =>
    simp only [runLength]
    split_ifs with h
    · exact Nat.zero_le _
    · exact Nat.succ_le_succ (ih _)

theorem not_stop_of_lt_runLength (gfn : Vec2 K → Vec2 K) (n : Nat) (t : τ) (i : Nat)
    (hi : i < runLength probe update gfn tol n t) :
    ¬ normSq (gfn (probe ((advance probe update gfn)^[i] t))) < tol * tol := by
  induction n generalizing t i with
  | zero => simp only [runLength] at hi; omega
  | succ n ih =>
    simp only [runLength] at hi
    split_ifs at hi with h
    · omega
    · cases i with
      | zero => simpa using h
      | succ j =>
        rw [Function.iterate_succ_apply]
        exact ih _ j (by omega)

theorem stop_of_runLength_lt (gfn : Vec2 K → Vec2 K) (n : Nat) (t : τ)
    (hlt : runLength probe update gfn tol n t < n) :
    normSq (gfn (probe ((advance probe update gfn)^[runLength probe update gfn tol n t] t))) <
      tol * tol := by
  induction n generalizing t with
  | zero => omega
  | succ n ih =>
    simp only [runLength] at hlt ⊢
    split_ifs at hlt ⊢ with h
    · simpa using h
    · rw [Function.iterate_succ_apply]
      exact ih _ (by omega)

theorem drive_observed_iter (gfn : Vec2 K → Vec2 K) (obs : Vec2 K → σ → σ) (fuel : Nat)
    (s : DriveVars τ K σ) (h : s.iter + fuel ≤ max_iters) :
    (drive probe update max_iters tol (observed gfn obs) fuel s).iter =
      s.iter + runLength probe update gfn tol fuel s.pos := by
  induction fuel generalizing s with
  | zero => rfl
  | succ n ih =>
    have h1 : s.iter < max_iters := by omega
    simp only [drive, runLength, h1, if_true, observed]
    split_ifs with h2
    · rfl
    · rw [ih _ (by simp only; omega)]
      simp only [advance]
      omega

theorem drive_observed_pos (gfn : Vec2 K → Vec2 K) (obs : Vec2 K → σ → σ) (fuel : Nat)
    (s : DriveVars τ K σ) (h : s.iter + fuel ≤ max_iters) :
    (drive probe update max_iters tol (observed gfn obs) fuel s).pos =
      (advance probe update gfn)^[runLength probe update gfn tol fuel s.pos] s.pos := by
  induction fuel generalizing s with
  | zero => rfl
  | succ n ih =>
    have h1 : s.iter < max_iters := by omega
    simp only [drive, runLength, h1, if_true, observed]
    split_ifs with h2
    · rfl
    · rw [ih _ (by simp only; omega), Function.iterate_succ_apply]
      rfl

theorem drive_observed_norm (gfn : Vec2 K → Vec2 K) (obs : Vec2 K → σ → σ) (fuel : Nat)
    (s : DriveVars τ K σ) (h : s.iter + fuel ≤ max_iters) (hpos : 0 < fuel) :
    (drive probe update max_iters tol (observed gfn obs) fuel s).grad_norm_sq =
      normSq (gfn (probe ((advance probe update gfn)^[
        min (runLength probe update gfn tol fuel s.pos) (fuel - 1)] s.pos))) := by
  induction fuel generalizing s with
  | zero => omega
  | succ n ih =>
    have h1 : s.iter < max_iters := by omega
    simp only [drive, runLength, h1, if_true, observed]
    split_ifs with h2
    · simp
    · cases n with
      | zero => simp [drive, runLength]
      | succ m =>
        rw [ih _ (by simp only; omega) (Nat.succ_pos m)]
        have e : min (runLength probe update gfn tol (m + 1)
              (advance probe update gfn s.pos) + 1) (m + 1 + 1 - 1) =
            min (runLength probe update gfn tol (m + 1)
              (advance probe update gfn s.pos)) (m + 1 - 1) + 1 := by omega
        rw [e, Function.iterate_succ_apply]
        rfl

theorem drive_recording_env (gfn : Vec2 K → Vec2 K) (fuel : Nat)
    (s : DriveVars τ K (List (Vec2 K))) (h : s.iter + fuel ≤ max_iters) :
    (drive probe update max_iters tol (recording gfn) fuel s).env =
      s.env ++ (List.range (min (runLength probe update gfn tol fuel s.pos + 1) fuel)).map
        (fun i => probe ((advance probe update gfn)^[i] s.pos)) := by
  induction fuel generalizing s with
  | zero => simp [drive]
  | succ n ih =>
    have h1 : s.iter < max_iters := by omega
    simp only [drive, runLength, h1, if_true, recording]
    split_ifs with h2
    · simp [List.range_succ]
    · rw [ih _ (by simp only; omega)]
      have e : min (runLength probe update gfn tol n (advance probe update gfn s.pos) + 1 + 1)
            (n + 1) =
          min (runLength probe update gfn tol n (advance probe update gfn s.pos) + 1) n + 1 := by
        omega
      rw [e, List.range_succ_eq_map, List.map_cons, List.map_map]
      simp only [List.append_assoc, List.singleton_append, Function.iterate_zero, id_eq]
      rfl

end Drive

/-! ## From the three functions to the common shape -/

section Views

variable {K σ : Type}

theorem descent_view_injective (s t : DescentVars K σ) (h : s.toDrive = t.toDrive) :
    s = t := by
  cases s; cases t
  simp only [DescentVars.toDrive, DriveVars.mk.injEq] at h
  simp only [DescentVars.mk.injEq]
  exact h

theorem momentum_view_injective (s t : MomentumVars K σ) (h : s.toDrive = t.toDrive) :
    s = t := by
  cases s; cases t
  simp only [MomentumVars.toDrive, DriveVars.mk.injEq, Prod.mk.injEq] at h
  simp only [MomentumVars.mk.injEq]
  tauto

end Views

section Entry

variable {K σ : Type} [Zero K] [Add K] [Sub K] [Mul K] [LT K] [∀ a b : K, Decidable (a < b)]

theorem gradient_descent_eq_drive (sqrt : K → K) (initial : Vec2 K) (alpha : K)
    (max_iters : Nat) (tol : K) (gradient : Vec2 K → σ → Vec2 K × σ) (env : σ) :
    gradient_descent sqrt initial alpha max_iters tol gradient env =
      ({ final_point := (drive id (descent_update alpha) max_iters tol gradient max_iters
            (DriveVars.start initial env)).pos,
         iterations := (drive id (descent_update alpha) max_iters tol gradient max_iters
            (DriveVars.start initial env)).iter,
         final_grad_norm := sqrt (drive id (descent_update alpha) max_iters tol gradient
            max_iters (DriveVars.start initial env)).grad_norm_sq },
        (drive id (descent_update alpha) max_iters tol gradient max_iters
            (DriveVars.start initial env)).env) := by
  have e : (gradient_descent_loop alpha max_iters tol gradient max_iters
        { current := initial, iter := 0, grad_norm_sq := 0, env := env }).toDrive =
      drive id (descent_update alpha) max_iters tol gradient max_iters
        (DriveVars.start initial env) :=
    gradient_descent_loop_toDrive alpha max_iters tol gradient max_iters _
  rw [← e]
  rfl

theorem momentum_eq_drive (sqrt : K → K) (initial : Vec2 K) (alpha beta : K)
    (max_iters : Nat) (tol : K) (gradient : Vec2 K → σ → Vec2 K × σ) (env : σ) :
    gradient_descent_momentum sqrt initial alpha beta max_iters tol gradient env =
      ({ final_point := (drive Prod.fst (momentum_update alpha beta) max_iters tol gradient
            max_iters (DriveVars.start (initial, ⟨0, 0⟩) env)).pos.1,
         iterations := (drive Prod.fst (momentum_update alpha beta) max_iters tol gradient
            max_iters (DriveVars.start (initial, ⟨0, 0⟩) env)).iter,
         final_grad_norm := sqrt (drive Prod.fst (momentum_update alpha beta) max_iters tol
            gradient max_iters (DriveVars.start (initial, ⟨0, 0⟩) env)).grad_norm_sq },
        (drive Prod.fst (momentum_update alpha beta) max_iters tol gradient max_iters
            (DriveVars.start (initial, ⟨0, 0⟩) env)).env) := by
  have e : (gradient_descent_momentum_loop alpha beta max_iters tol gradient max_iters
        { current := initial, velocity := ⟨0, 0⟩, iter := 0, grad_norm_sq := 0,
          env := env }).toDrive =
      drive Prod.fst (momentum_update alpha beta) max_iters tol gradient max_iters
        (DriveVars.start (initial, ⟨0, 0⟩) env) :=
    momentum_loop_toDrive alpha beta max_iters tol gradient max_iters _
  rw [← e]
  rfl

theorem nesterov_eq_drive (sqrt : K → K) (initial : Vec2 K) (alpha beta : K)
    (max_iters : Nat) (tol : K) (gradient : Vec2 K → σ → Vec2 K × σ) (env : σ) :
    nesterov_momentum sqrt initial alpha beta max_iters tol gradient env =
      ({ final_point := (drive (lookahead_of beta) (momentum_update alpha beta) max_iters tol
            gradient max_iters (DriveVars.start (initial, ⟨0, 0⟩) env)).pos.1,
         iterations := (drive (lookahead_of beta) (momentum_update alpha beta) max_iters tol
            gradient max_iters (DriveVars.start (initial, ⟨0, 0⟩) env)).iter,
         final_grad_norm := sqrt (drive (lookahead_of beta) (momentum_update alpha beta)
            max_iters tol gradient max_iters (DriveVars.start (initial, ⟨0, 0⟩) env)).grad_norm_sq },
        (drive (lookahead_of beta) (momentum_update alpha beta) max_iters tol gradient
            max_iters (DriveVars.start (initial, ⟨0, 0⟩) env)).env) := by
  have e : (nesterov_momentum_loop alpha beta max_iters tol gradient max_iters
        { current := initial, velocity := ⟨0, 0⟩, iter := 0, grad_norm_sq := 0,
          env := env }).toDrive =
      drive (lookahead_of beta) (momentum_update alpha beta) max_iters tol gradient max_iters
        (DriveVars.start (initial, ⟨0, 0⟩) env) :=
    nesterov_loop_toDrive alpha beta max_iters tol gradient max_iters _
  rw [← e]
  rfl

end Entry

section DriveEntry

variable {K σ : Type} [Zero K] [Add K] [Mul K] [LT K] [∀ a b : K, Decidable (a < b)]

theorem drive_recording_last {τ : Type} (probe : τ → Vec2 K) (update : τ → Vec2 K → τ)
    (max_iters : Nat) (tol : K) (gfn : Vec2 K → Vec2 K) (t : τ) (hpos : 0 < max_iters) :
    ∃ p, (drive probe update max_iters tol (recording gfn) max_iters
          (DriveVars.start t [])).env.getLast? = some p ∧
      (drive probe update max_iters tol (recording gfn) max_iters
          (DriveVars.start t [])).grad_norm_sq = normSq (gfn p) := by
  have h0 : (DriveVars.start t [] : DriveVars τ K (List (Vec2 K))).iter + max_iters
      ≤ max_iters := by
    simp [DriveVars.start]
  have he := drive_recording_env probe update max_iters tol gfn max_iters
    (DriveVars.start t []) h0
  have hn := drive_observed_norm probe update max_iters tol gfn (fun p path => path ++ [p])
    max_iters (DriveVars.start t []) h0 hpos
  have hs : (DriveVars.start t [] : DriveVars τ K (List (Vec2 K))).pos = t := rfl
  have hnil : (DriveVars.start t [] : DriveVars τ K (List (Vec2 K))).env = [] := rfl
  rw [hs] at hn
  rw [hs, hnil, List.nil_append] at he
  have e : min (runLength probe update gfn tol max_iters t + 1) max_iters =
      min (runLength probe update gfn tol max_iters t) (max_iters - 1) + 1 := by omega
  rw [e, List.range_succ, List.map_append, List.map_singleton] at he
  exact ⟨_, by rw [he]; exact List.getLast?_concat _, hn⟩

theorem drive_early_stop_norm {τ : Type} (probe : τ → Vec2 K) (update : τ → Vec2 K → τ)
    (max_iters : Nat) (tol : K) (gfn : Vec2 K → Vec2 K) (obs : Vec2 K → σ → σ) (t : τ)
    (env : σ)
    (hlt : (drive probe update max_iters tol (observed gfn obs) max_iters
      (DriveVars.start t env)).iter < max_iters) :
    (drive probe update max_iters tol (observed gfn obs) max_iters
        (DriveVars.start t env)).grad_norm_sq =
      normSq (gfn (probe (drive probe update max_iters tol (observed gfn obs) max_iters
        (DriveVars.start t env)).pos)) := by
  have h0 : (DriveVars.start t env : DriveVars τ K σ).iter + max_iters ≤ max_iters := by
    simp [DriveVars.start]
  have hi := drive_observed_iter probe update max_iters tol gfn obs max_iters
    (DriveVars.start t env) h0
  have hp := drive_observed_pos probe update max_iters tol gfn obs max_iters
    (DriveVars.start t env) h0
  have hn := drive_observed_norm probe update max_iters tol gfn obs max_iters
    (DriveVars.start t env) h0 (by omega)
  have hs : (DriveVars.start t env : DriveVars τ K σ).pos = t := rfl
  have hz : (DriveVars.start t env : DriveVars τ K σ).iter = 0 := rfl
  rw [hs, hz, Nat.zero_add] at hi
  rw [hs] at hp hn
  rw [hi] at hlt
  have e : min (runLength probe update gfn tol max_iters t) (max_iters - 1) =
      runLength probe update gfn tol max_iters t := by omega
  rw [hn, hp, e]

end DriveEntry

section Bridge

variable {K σ : Type} [LinearOrderedField K]

theorem momentum_loop_beta_zero (alpha : K) (max_iters : Nat) (tol : K)
    (gradient : Vec2 K → σ → Vec2 K × σ) (fuel : Nat) (s : MomentumVars K σ) :
    (gradient_descent_momentum_loop alpha 0 max_iters tol gradient fuel s).toDescent =
      gradient_descent_loop alpha max_iters tol gradient fuel s.toDescent := by
  induction fuel generalizing s with
  | zero => rfl
  | succ n ih =>
    simp only [gradient_descent_momentum_loop, gradient_descent_loop, MomentumVars.toDescent]
    split_ifs with h1 h2
    · rfl
    · have e := ih { current := ⟨s.current.x + (0 * s.velocity.x - alpha * (gradient s.current s.env).1.x),
                        s.current.y + (0 * s.velocity.y - alpha * (gradient s.current s.env).1.y)⟩,
                     velocity := ⟨0 * s.velocity.x - alpha * (gradient s.current s.env).1.x,
                        0 * s.velocity.y - alpha * (gradient s.current s.env).1.y⟩,
                     iter := s.iter + 1,
                     grad_norm_sq := (gradient s.current s.env).1.x * (gradient s.current s.env).1.x +
                        (gradient s.current s.env).1.y * (gradient s.current s.env).1.y,
                     env := (gradient s.current s.env).2 }
      simp only [MomentumVars.toDescent, zero_mul, zero_sub, ← sub_eq_add_neg] at e
      simp only [zero_mul, zero_sub, ← sub_eq_add_neg]
      exact e
    · rfl

theorem nesterov_loop_beta_zero (alpha : K) (max_iters : Nat) (tol : K)
    (gradient : Vec2 K → σ → Vec2 K × σ) (fuel : Nat) (s : MomentumVars K σ) :
    (nesterov_momentum_loop alpha 0 max_iters tol gradient fuel s).toDescent =
      gradient_descent_loop alpha max_iters tol gradient fuel s.toDescent := by
  induction fuel generalizing s with
  | zero => rfl
  | succ n ih =>
    have hl : (⟨s.current.x + 0 * s.velocity.x, s.current.y + 0 * s.velocity.y⟩ : Vec2 K) =
        s.current := by
      simp only [zero_mul, add_zero]
    simp only [nesterov_momentum_loop, gradient_descent_loop, MomentumVars.toDescent, hl]
    split_ifs with h1 h2
    · rfl
    · have e := ih { current := ⟨s.current.x + (0 * s.velocity.x - alpha * (gradient s.current s.env).1.x),
                        s.current.y + (0 * s.velocity.y - alpha * (gradient s.current s.env).1.y)⟩,
                     velocity := ⟨0 * s.velocity.x - alpha * (gradient s.current s.env).1.x,
                        0 * s.velocity.y - alpha * (gradient s.current s.env).1.y⟩,
                     iter := s.iter + 1,
                     grad_norm_sq := (gradient s.current s.env).1.x * (gradient s.current s.env).1.x +
                        (gradient s.current s.env).1.y * (gradient s.current s.env).1.y,
                     env := (gradient s.current s.env).2 }
      simp only [MomentumVars.toDescent, zero_mul, zero_sub, ← sub_eq_add_neg] at e
      simp only [zero_mul, zero_sub, ← sub_eq_add_neg]
      exact e
    · rfl

end Bridge

/-! ## Stopping criterion and budget -/

section Contract

variable {K σ : Type} [LinearOrderedField K]

/-- C1. Tolerance law over the reals: for each of the three optimizers, every callback (also
a stateful one) and every `tol > 0`, a run that returns `iterations < max_iters` returns
`final_grad_norm < tol`. -/
theorem tolerance_law (initial : Vec2 ℝ) (alpha beta : ℝ) (max_iters : Nat) (tol : ℝ)
    (gradient : Vec2 ℝ → σ → Vec2 ℝ × σ) (env : σ) (htol : 0 < tol) :
    ((gradient_descent Real.sqrt initial alpha max_iters tol gradient env).1.iterations
        < max_iters →
      (gradient_descent Real.sqrt initial alpha max_iters tol gradient env).1.final_grad_norm
        < tol) ∧
    ((gradient_descent_momentum Real.sqrt initial alpha beta max_iters tol gradient
        env).1.iterations < max_iters →
      (gradient_descent_momentum Real.sqrt initial alpha beta max_iters tol gradient
        env).1.final_grad_norm < tol) ∧
    ((nesterov_momentum Real.sqrt initial alpha beta max_iters tol gradient env).1.iterations
        < max_iters →
      (nesterov_momentum Real.sqrt initial alpha beta max_iters tol gradient
        env).1.final_grad_norm < tol) := by
  rw [gradient_descent_eq_drive, momentum_eq_drive, nesterov_eq_drive]
  refine ⟨fun h => ?_, fun h => ?_, fun h => ?_⟩
  all_goals
    rw [Real.sqrt_lt' htol, sq]
    exact drive_tolerance _ _ max_iters tol gradient max_iters _
      (by simp [DriveVars.start]) h

/-- Witness of C1: descent on the quadratic bowl from the origin stops at iteration 0 of a
budget of 1, and the three runs obey the law. -/
theorem tolerance_law_witness :
    (0 : ℝ) < 1 ∧
    (gradient_descent Real.sqrt (⟨0, 0⟩ : Vec2 ℝ) 1 1 1 (recording grad_quadratic)
      []).1.iterations < 1 ∧
    (((gradient_descent Real.sqrt (⟨0, 0⟩ : Vec2 ℝ) 1 1 1 (recording grad_quadratic)
        []).1.iterations < 1 →
      (gradient_descent Real.sqrt (⟨0, 0⟩ : Vec2 ℝ) 1 1 1 (recording grad_quadratic)
        []).1.final_grad_norm < 1) ∧
    ((gradient_descent_momentum Real.sqrt (⟨0, 0⟩ : Vec2 ℝ) 1 (1 / 2) 1 1
        (recording grad_quadratic) []).1.iterations < 1 →
      (gradient_descent_momentum Real.sqrt (⟨0, 0⟩ : Vec2 ℝ) 1 (1 / 2) 1 1
        (recording grad_quadratic) []).1.final_grad_norm < 1) ∧
    ((nesterov_momentum Real.sqrt (⟨0, 0⟩ : Vec2 ℝ) 1 (1 / 2) 1 1
        (recording grad_quadratic) []).1.iterations < 1 →
      (nesterov_momentum Real.sqrt (⟨0, 0⟩ : Vec2 ℝ) 1 (1 / 2) 1 1
        (recording grad_quadratic) []).1.final_grad_norm < 1)) :=
  ⟨one_pos,
    by simp [gradient_descent, gradient_descent_loop, recording, grad_quadratic],
    tolerance_law (⟨0, 0⟩ : Vec2 ℝ) 1 (1 / 2) 1 1 (recording grad_quadratic) [] one_pos⟩

/-- C2. Termination and budget: each loop, run with `max_iters` units of fuel, has really
left the C++ loop (any larger amount of fuel returns the same variables), so each optimizer is
a total function of its inputs, and the `iterations` it returns is at most `max_iters`. -/
theorem termination_and_budget (sqrt : K → K) (initial : Vec2 K) (alpha beta : K)
    (max_iters : Nat) (tol : K) (gradient : Vec2 K → σ → Vec2 K × σ) (env : σ) :
    (gradient_descent sqrt initial alpha max_iters tol gradient env).1.iterations ≤ max_iters ∧
    (gradient_descent_momentum sqrt initial alpha beta max_iters tol gradient
      env).1.iterations ≤ max_iters ∧
    (nesterov_momentum sqrt initial alpha beta max_iters tol gradient env).1.iterations
      ≤ max_iters ∧
    (∀ fuel, max_iters ≤ fuel →
      gradient_descent_loop alpha max_iters tol gradient fuel
          { current := initial, iter := 0, grad_norm_sq := 0, env := env } =
        gradient_descent_loop alpha max_iters tol gradient max_iters
          { current := initial, iter := 0, grad_norm_sq := 0, env := env }) ∧
    (∀ fuel, max_iters ≤ fuel →
      gradient_descent_momentum_loop alpha beta max_iters tol gradient fuel
          { current := initial, velocity := ⟨0, 0⟩, iter := 0, grad_norm_sq := 0, env := env } =
        gradient_descent_momentum_loop alpha beta max_iters tol gradient max_iters
          { current := initial, velocity := ⟨0, 0⟩, iter := 0, grad_norm_sq := 0, env := env }) ∧
    (∀ fuel, max_iters ≤ fuel →
      nesterov_momentum_loop alpha beta max_iters tol gradient fuel
          { current := initial, velocity := ⟨0, 0⟩, iter := 0, grad_norm_sq := 0, env := env } =
        nesterov_momentum_loop alpha beta max_iters tol gradient max_iters
          { current := initial, velocity := ⟨0, 0⟩, iter := 0, grad_norm_sq := 0,
            env := env }) := by
  rw [gradient_descent_eq_drive, momentum_eq_drive, nesterov_eq_drive]
  refine ⟨drive_iter_le _ _ _ _ _ _ _ (Nat.zero_le _), drive_iter_le _ _ _ _ _ _ _ (Nat.zero_le _),
    drive_iter_le _ _ _ _ _ _ _ (Nat.zero_le _), fun fuel hf => ?_, fun fuel hf => ?_,
    fun fuel hf => ?_⟩
  · apply descent_view_injective
    rw [gradient_descent_loop_toDrive, gradient_descent_loop_toDrive]
    exact drive_fuel _ _ _ _ _ _ _ _ (by simp [DescentVars.toDrive])
      (by simpa [DescentVars.toDrive] using hf)
  · apply momentum_view_injective
    rw [momentum_loop_toDrive, momentum_loop_toDrive]
    exact drive_fuel _ _ _ _ _ _ _ _ (by simp [MomentumVars.toDrive])
      (by simpa [MomentumVars.toDrive] using hf)
  · apply momentum_view_injective
    rw [nesterov_loop_toDrive, nesterov_loop_toDrive]
    exact drive_fuel _ _ _ _ _ _ _ _ (by simp [MomentumVars.toDrive])
      (by simpa [MomentumVars.toDrive] using hf)

/-- C3. With `beta = 0` both momentum variants coincide with plain descent, over any field
and for every callback and callback state: the returned `OptimizerResult` and the state in
which the callback is left are equal; for the recording callback of `main` the latter is the
sequence of probed points. -/
theorem beta_zero_reduction (sqrt : K → K) (initial : Vec2 K) (alpha : K) (max_iters : Nat)
    (tol : K) (gradient : Vec2 K → σ → Vec2 K × σ) (env : σ) (gfn : Vec2 K → Vec2 K) :
    gradient_descent_momentum sqrt initial alpha 0 max_iters tol gradient env =
      gradient_descent sqrt initial alpha max_iters tol gradient env ∧
    nesterov_momentum sqrt initial alpha 0 max_iters tol gradient env =
      gradient_descent sqrt initial alpha max_iters tol gradient env ∧
    (gradient_descent_momentum sqrt initial alpha 0 max_iters tol (recording gfn) []).2 =
      (gradient_descent sqrt initial alpha max_iters tol (recording gfn) []).2 ∧
    (nesterov_momentum sqrt initial alpha 0 max_iters tol (recording gfn) []).2 =
      (gradient_descent sqrt initial alpha max_iters tol (recording gfn) []).2 := by
  have hm : ∀ {ρ : Type} (g : Vec2 K → ρ → Vec2 K × ρ) (e : ρ),
      gradient_descent_momentum sqrt initial alpha 0 max_iters tol g e =
        gradient_descent sqrt initial alpha max_iters tol g e := by
    intro ρ g e
    have h := momentum_loop_beta_zero alpha max_iters tol g max_iters
      { current := initial, velocity := ⟨0, 0⟩, iter := 0, grad_norm_sq := 0, env := e }
    simp only [gradient_descent_momentum, gradient_descent]
    rw [← show _ = gradient_descent_loop alpha max_iters tol g max_iters
      { current := initial, iter := 0, grad_norm_sq := 0, env := e } from h]
    rfl
  have hn : ∀ {ρ : Type} (g : Vec2 K → ρ → Vec2 K × ρ) (e : ρ),
      nesterov_momentum sqrt initial alpha 0 max_iters tol g e =
        gradient_descent sqrt initial alpha max_iters tol g e := by
    intro ρ g e
    have h := nesterov_loop_beta_zero alpha max_iters tol g max_iters
      { current := initial, velocity := ⟨0, 0⟩, iter := 0, grad_norm_sq := 0, env := e }
    simp only [nesterov_momentum, gradient_descent]
    rw [← show _ = gradient_descent_loop alpha max_iters tol g max_iters
      { current := initial, iter := 0, grad_norm_sq := 0, env := e } from h]
    rfl
  exact ⟨hm gradient env, hn gradient env, by rw [hm], by rw [hn]⟩

end Contract

/-! ## The reference recurrences -/

section Reference

variable {K σ : Type} [LinearOrderedField K]

theorem descent_reference_eq_iterate (alpha : K) (gfn : Vec2 K → Vec2 K) (initial : Vec2 K)
    (i : Nat) :
    descent_reference alpha gfn initial i =
      (advance id (descent_update alpha) gfn)^[i] initial := by
  induction i with
  | zero => rfl
  | succ n ih =>
    rw [Function.iterate_succ_apply', ← ih]
    rfl

theorem momentum_reference_eq_iterate (alpha beta : K) (gfn : Vec2 K → Vec2 K)
    (initial : Vec2 K) (i : Nat) :
    momentum_reference alpha beta gfn initial i =
      (advance Prod.fst (momentum_update alpha beta) gfn)^[i] (initial, ⟨0, 0⟩) := by
  induction i with
  | zero => rfl
  | succ n ih =>
    rw [Function.iterate_succ_apply', ← ih]
    rfl

theorem nesterov_reference_eq_iterate (alpha beta : K) (gfn : Vec2 K → Vec2 K)
    (initial : Vec2 K) (i : Nat) :
    nesterov_reference alpha beta gfn initial i =
      (advance (lookahead_of beta) (momentum_update alpha beta) gfn)^[i] (initial, ⟨0, 0⟩) := by
  induction i with
  | zero => rfl
  | succ n ih =>
    rw [Function.iterate_succ_apply', ← ih]
    rfl

theorem drive_observed_spec {τ : Type} (probe : τ → Vec2 K) (update : τ → Vec2 K → τ)
    (max_iters : Nat) (tol : K) (gfn : Vec2 K → Vec2 K) (obs : Vec2 K → σ → σ) (t : τ)
    (env : σ) :
    (drive probe update max_iters tol (observed gfn obs) max_iters
        (DriveVars.start t env)).iter ≤ max_iters ∧
    (∀ i, i < (drive probe update max_iters tol (observed gfn obs) max_iters
        (DriveVars.start t env)).iter →
      ¬ normSq (gfn (probe ((advance probe update gfn)^[i] t))) < tol * tol) ∧
    ((drive probe update max_iters tol (observed gfn obs) max_iters
        (DriveVars.start t env)).iter < max_iters →
      normSq (gfn (probe ((advance probe update gfn)^[(drive probe update max_iters tol
        (observed gfn obs) max_iters (DriveVars.start t env)).iter] t))) < tol * tol) ∧
    (drive probe update max_iters tol (observed gfn obs) max_iters
        (DriveVars.start t env)).pos =
      (advance probe update gfn)^[(drive probe update max_iters tol (observed gfn obs)
        max_iters (DriveVars.start t env)).iter] t := by
  have h0 : (DriveVars.start t env : DriveVars τ K σ).iter + max_iters ≤ max_iters := by
    simp [DriveVars.start]
  have hi := drive_observed_iter probe update max_iters tol gfn obs max_iters
    (DriveVars.start t env) h0
  have hp := drive_observed_pos probe update max_iters tol gfn obs max_iters
    (DriveVars.start t env) h0
  have hs : (DriveVars.start t env : DriveVars τ K σ).pos = t := rfl
  have hz : (DriveVars.start t env : DriveVars τ K σ).iter = 0 := rfl
  rw [hs, hz, Nat.zero_add] at hi
  rw [hs] at hp
  rw [hp, hi]
  exact ⟨runLength_le probe update tol gfn max_iters t,
    fun i h => not_stop_of_lt_runLength probe update tol gfn max_iters t i h,
    fun h => stop_of_runLength_lt probe update tol gfn max_iters t h, rfl⟩

theorem drive_recording_path {τ : Type} (probe : τ → Vec2 K) (update : τ → Vec2 K → τ)
    (max_iters : Nat) (tol : K) (gfn : Vec2 K → Vec2 K) (t : τ) :
    (drive probe update max_iters tol (recording gfn) max_iters (DriveVars.start t [])).env =
      (List.range (min ((drive probe update max_iters tol (recording gfn) max_iters
        (DriveVars.start t [])).iter + 1) max_iters)).map
        (fun i => probe ((advance probe update gfn)^[i] t)) := by
  have h0 : (DriveVars.start t [] : DriveVars τ K (List (Vec2 K))).iter + max_iters
      ≤ max_iters := by
    simp [DriveVars.start]
  have hi := drive_observed_iter probe update max_iters tol gfn (fun p path => path ++ [p])
    max_iters (DriveVars.start t []) h0
  have he := drive_recording_env probe update max_iters tol gfn max_iters
    (DriveVars.start t []) h0
  have hs : (DriveVars.start t [] : DriveVars τ K (List (Vec2 K))).pos = t := rfl
  have hz : (DriveVars.start t [] : DriveVars τ K (List (Vec2 K))).iter = 0 := rfl
  have hn : (DriveVars.start t [] : DriveVars τ K (List (Vec2 K))).env = [] := rfl
  rw [hs, hz, Nat.zero_add] at hi
  rw [hs, hn, List.nil_append] at he
  have hi2 : (drive probe update max_iters tol (recording gfn) max_iters
      (DriveVars.start t [])).iter = runLength probe update gfn tol max_iters t := hi
  rw [he, hi2]

end Reference

/-! ## The three variants against their reference recurrences -/

section Variants

variable {K σ : Type} [LinearOrderedField K]

/-- C4. Plain descent equals its reference definition `p 0 = initial`,
`p (i + 1) = p i - alpha * gradient (p i)`, for every pure gradient under any observation
wrapper: `iterations` is at most `max_iters`, no index below it satisfies the strict test
`|gradient (p i)|^2 < tol^2`, the index `iterations` itself satisfies it when
`iterations < max_iters` (so it is the least such index, or `max_iters` if there is none),
and `final_point = p iterations`. -/
theorem gradient_descent_matches_reference (sqrt : K → K) (initial : Vec2 K) (alpha : K)
    (max_iters : Nat) (tol : K) (gfn : Vec2 K → Vec2 K) (obs : Vec2 K → σ → σ) (env : σ) :
    (gradient_descent sqrt initial alpha max_iters tol (observed gfn obs) env).1.iterations
      ≤ max_iters ∧
    (∀ i, i < (gradient_descent sqrt initial alpha max_iters tol (observed gfn obs)
        env).1.iterations →
      ¬ normSq (gfn (descent_reference alpha gfn initial i)) < tol * tol) ∧
    ((gradient_descent sqrt initial alpha max_iters tol (observed gfn obs) env).1.iterations
        < max_iters →
      normSq (gfn (descent_reference alpha gfn initial
        (gradient_descent sqrt initial alpha max_iters tol (observed gfn obs)
          env).1.iterations)) < tol * tol) ∧
    (gradient_descent sqrt initial alpha max_iters tol (observed gfn obs) env).1.final_point =
      descent_reference alpha gfn initial
        (gradient_descent sqrt initial alpha max_iters tol (observed gfn obs)
          env).1.iterations := by
  rw [gradient_descent_eq_drive]
  simp only [descent_reference_eq_iterate]
  exact drive_observed_spec id (descent_update alpha) max_iters tol gfn obs initial env

/-- C6. Nesterov momentum samples the gradient at the lookahead `l i = p i + beta * v i` of its
reference recurrence: under the recording callback of `main` the probed points are exactly
`l 0, l 1, ...` with `l 0 = initial`, `iterations` is the least index below `max_iters` at
which `|gradient (l i)|^2 < tol^2` (or `max_iters`), and `final_point = p iterations`. -/
theorem nesterov_matches_reference (sqrt : K → K) (initial : Vec2 K) (alpha beta : K)
    (max_iters : Nat) (tol : K) (gfn : Vec2 K → Vec2 K) :
    (nesterov_momentum sqrt initial alpha beta max_iters tol (recording gfn) []).2 =
      (List.range (min ((nesterov_momentum sqrt initial alpha beta max_iters tol
        (recording gfn) []).1.iterations + 1) max_iters)).map
        (fun i => lookahead_of beta (nesterov_reference alpha beta gfn initial i)) ∧
    lookahead_of beta (nesterov_reference alpha beta gfn initial 0) = initial ∧
    ((nesterov_momentum sqrt initial alpha beta max_iters tol (recording gfn)
        []).1.iterations ≤ max_iters ∧
      (∀ i, i < (nesterov_momentum sqrt initial alpha beta max_iters tol
          (recording gfn) []).1.iterations →
        ¬ normSq (gfn (lookahead_of beta (nesterov_reference alpha beta gfn initial i)))
          < tol * tol) ∧
      ((nesterov_momentum sqrt initial alpha beta max_iters tol (recording gfn)
          []).1.iterations < max_iters →
        normSq (gfn (lookahead_of beta (nesterov_reference alpha beta gfn initial
          (nesterov_momentum sqrt initial alpha beta max_iters tol (recording gfn)
            []).1.iterations))) < tol * tol)) ∧
    (nesterov_momentum sqrt initial alpha beta max_iters tol (recording gfn)
        []).1.final_point =
      (nesterov_reference alpha beta gfn initial
        (nesterov_momentum sqrt initial alpha beta max_iters tol (recording gfn)
          []).1.iterations).1 := by
  have hspec := drive_observed_spec (lookahead_of beta) (momentum_update alpha beta) max_iters
    tol gfn (fun p path => path ++ [p]) (initial, ⟨0, 0⟩) []
  have hpath := drive_recording_path (lookahead_of beta) (momentum_update alpha beta)
    max_iters tol gfn (initial, ⟨0, 0⟩)
  have h0 : lookahead_of beta (nesterov_reference alpha beta gfn initial 0) = initial := by
    simp [lookahead_of, nesterov_reference]
  rw [nesterov_eq_drive]
  refine ⟨?_, h0, ?_⟩
  · simp only [nesterov_reference_eq_iterate]
    exact hpath
  · simp only [nesterov_reference_eq_iterate]
    obtain ⟨h1, h2, h3, h4⟩ := hspec
    exact ⟨⟨h1, h2, h3⟩, congrArg Prod.fst h4⟩

/-- C7. Gradient-evaluation count under the recording callback of `main`: for each of the
three optimizers the number of recorded probes is `iterations + 1` when
`iterations < max_iters` and `max_iters` when `iterations = max_iters`. -/
theorem evaluation_count (sqrt : K → K) (initial : Vec2 K) (alpha beta : K)
    (max_iters : Nat) (tol : K) (gfn : Vec2 K → Vec2 K) :
    (((gradient_descent sqrt initial alpha max_iters tol (recording gfn) []).1.iterations
          < max_iters →
        (gradient_descent sqrt initial alpha max_iters tol (recording gfn) []).2.length =
          (gradient_descent sqrt initial alpha max_iters tol (recording gfn)
            []).1.iterations + 1) ∧
      ((gradient_descent sqrt initial alpha max_iters tol (recording gfn) []).1.iterations
          = max_iters →
        (gradient_descent sqrt initial alpha max_iters tol (recording gfn) []).2.length =
          max_iters)) ∧
    (((gradient_descent_momentum sqrt initial alpha beta max_iters tol (recording gfn)
          []).1.iterations < max_iters →
        (gradient_descent_momentum sqrt initial alpha beta max_iters tol (recording gfn)
          []).2.length =
          (gradient_descent_momentum sqrt initial alpha beta max_iters tol (recording gfn)
            []).1.iterations + 1) ∧
      ((gradient_descent_momentum sqrt initial alpha beta max_iters tol (recording gfn)
          []).1.iterations = max_iters →
        (gradient_descent_momentum sqrt initial alpha beta max_iters tol (recording gfn)
          []).2.length = max_iters)) ∧
    (((nesterov_momentum sqrt initial alpha beta max_iters tol (recording gfn)
          []).1.iterations < max_iters →
        (nesterov_momentum sqrt initial alpha beta max_iters tol (recording gfn)
          []).2.length =
          (nesterov_momentum sqrt initial alpha beta max_iters tol (recording gfn)
            []).1.iterations + 1) ∧
      ((nesterov_momentum sqrt initial alpha beta max_iters tol (recording gfn)
          []).1.iterations = max_iters →
        (nesterov_momentum sqrt initial alpha beta max_iters tol (recording gfn)
          []).2.length = max_iters)) := by
  have key : ∀ {τ : Type} (probe : τ → Vec2 K) (update : τ → Vec2 K → τ) (t : τ),
      ((drive probe update max_iters tol (recording gfn) max_iters
            (DriveVars.start t [])).iter < max_iters →
          (drive probe update max_iters tol (recording gfn) max_iters
            (DriveVars.start t [])).env.length =
          (drive probe update max_iters tol (recording gfn) max_iters
            (DriveVars.start t [])).iter + 1) ∧
      ((drive probe update max_iters tol (recording gfn) max_iters
            (DriveVars.start t [])).iter = max_iters →
          (drive probe update max_iters tol (recording gfn) max_iters
            (DriveVars.start t [])).env.length = max_iters) := by
    intro τ probe update t
    rw [drive_recording_path probe update max_iters tol gfn t]
    simp only [List.length_map, List.length_range]
    constructor
    · intro h; omega
    · intro h; omega
  rw [gradient_descent_eq_drive, momentum_eq_drive, nesterov_eq_drive]
  exact ⟨key _ _ _, key _ _ _, key _ _ _⟩

end Variants

/-! ## Edge cases and the reported norm -/

section Edge

variable {K σ : Type} [LinearOrderedField K]

/-- C9. Zero budget: with `max_iters = 0` each of the three optimizers leaves the callback
state untouched for every callback (the gradient is never evaluated; with the recording
callback of `main` the path stays empty) and returns `final_point = initial`,
`iterations = 0`, `final_grad_norm = 0`. -/
theorem zero_budget (initial : Vec2 ℝ) (alpha beta tol : ℝ)
    (gradient : Vec2 ℝ → σ → Vec2 ℝ × σ) (env : σ) (gfn : Vec2 ℝ → Vec2 ℝ) :
    gradient_descent Real.sqrt initial alpha 0 tol gradient env =
      ({ final_point := initial, iterations := 0, final_grad_norm := 0 }, env) ∧
    gradient_descent_momentum Real.sqrt initial alpha beta 0 tol gradient env =
      ({ final_point := initial, iterations := 0, final_grad_norm := 0 }, env) ∧
    nesterov_momentum Real.sqrt initial alpha beta 0 tol gradient env =
      ({ final_point := initial, iterations := 0, final_grad_norm := 0 }, env) ∧
    (gradient_descent Real.sqrt initial alpha 0 tol (recording gfn) []).2 = [] ∧
    (gradient_descent_momentum Real.sqrt initial alpha beta 0 tol (recording gfn) []).2 = [] ∧
    (nesterov_momentum Real.sqrt initial alpha beta 0 tol (recording gfn) []).2 = [] := by
  simp only [gradient_descent, gradient_descent_loop, gradient_descent_momentum,
    gradient_descent_momentum_loop, nesterov_momentum, nesterov_momentum_loop, Real.sqrt_zero,
    and_self]

/-- Exact reals: with a budget of at least one iteration the reported norm is the norm of
the gradient at the last probed point, and it is nonnegative. -/
theorem last_probe_norm_exact (initial : Vec2 ℝ) (alpha beta : ℝ) (max_iters : Nat)
    (tol : ℝ) (gfn : Vec2 ℝ → Vec2 ℝ) (hbudget : 0 < max_iters) :
    (∃ p, (gradient_descent Real.sqrt initial alpha max_iters tol (recording gfn)
          []).2.getLast? = some p ∧
        (gradient_descent Real.sqrt initial alpha max_iters tol (recording gfn)
          []).1.final_grad_norm = Real.sqrt ((gfn p).x ^ 2 + (gfn p).y ^ 2) ∧
        0 ≤ (gradient_descent Real.sqrt initial alpha max_iters tol (recording gfn)
          []).1.final_grad_norm) ∧
    (∃ p, (gradient_descent_momentum Real.sqrt initial alpha beta max_iters tol (recording gfn)
          []).2.getLast? = some p ∧
        (gradient_descent_momentum Real.sqrt initial alpha beta max_iters tol (recording gfn)
          []).1.final_grad_norm = Real.sqrt ((gfn p).x ^ 2 + (gfn p).y ^ 2) ∧
        0 ≤ (gradient_descent_momentum Real.sqrt initial alpha beta max_iters tol
          (recording gfn) []).1.final_grad_norm) ∧
    (∃ p, (nesterov_momentum Real.sqrt initial alpha beta max_iters tol (recording gfn)
          []).2.getLast? = some p ∧
        (nesterov_momentum Real.sqrt initial alpha beta max_iters tol (recording gfn)
          []).1.final_grad_norm = Real.sqrt ((gfn p).x ^ 2 + (gfn p).y ^ 2) ∧
        0 ≤ (nesterov_momentum Real.sqrt initial alpha beta max_iters tol (recording gfn)
          []).1.final_grad_norm) := by
  have key : ∀ {τ : Type} (probe : τ → Vec2 ℝ) (update : τ → Vec2 ℝ → τ) (t : τ),
      ∃ p, (drive probe update max_iters tol (recording gfn) max_iters
            (DriveVars.start t [])).env.getLast? = some p ∧
        Real.sqrt (drive probe update max_iters tol (recording gfn) max_iters
            (DriveVars.start t [])).grad_norm_sq = Real.sqrt ((gfn p).x ^ 2 + (gfn p).y ^ 2) ∧
        0 ≤ Real.sqrt (drive probe update max_iters tol (recording gfn) max_iters
            (DriveVars.start t [])).grad_norm_sq := by
    intro τ probe update t
    obtain ⟨p, hp, hn⟩ := drive_recording_last probe update max_iters tol gfn t hbudget
    refine ⟨p, hp, ?_, Real.sqrt_nonneg _⟩
    rw [hn, normSq, sq, sq]
  rw [gradient_descent_eq_drive, momentum_eq_drive, nesterov_eq_drive]
  exact ⟨key _ _ _, key _ _ _, key _ _ _⟩

end Edge

/-! ## Scenarios on the quadratic bowl -/

section Scenario

variable {K σ : Type} [LinearOrderedField K]

theorem drive_iter_eq_of_first_stop {τ : Type} (probe : τ → Vec2 K) (update : τ → Vec2 K → τ)
    (max_iters : Nat) (tol : K) (gfn : Vec2 K → Vec2 K) (obs : Vec2 K → σ → σ) (t : τ)
    (env : σ) (n : Nat) (hn : n < max_iters)
    (hstop : normSq (gfn (probe ((advance probe update gfn)^[n] t))) < tol * tol)
    (hbefore : ∀ i, i < n →
      ¬ normSq (gfn (probe ((advance probe update gfn)^[i] t))) < tol * tol) :
    (drive probe update max_iters tol (observed gfn obs) max_iters
        (DriveVars.start t env)).iter = n := by
  obtain ⟨_, h2, h3, _⟩ := drive_observed_spec probe update max_iters tol gfn obs t env
  rcases Nat.lt_trichotomy (drive probe update max_iters tol (observed gfn obs) max_iters
        (DriveVars.start t env)).iter n with h | h | h
  · exact absurd (h3 (Nat.lt_trans h hn)) (hbefore _ h)
  · exact h
  · exact absurd hstop (h2 n h)

theorem bowl_descent_closed_form (i : Nat) :
    descent_reference (1 / 100 : K) grad_quadratic ⟨2, 2⟩ i =
      ⟨2 * (49 / 50) ^ i, 2 * (49 / 50) ^ i⟩ := by
  induction i with
  | zero => simp [descent_reference]
  | succ n ih =>
    simp only [descent_reference, ih, grad_quadratic, pow_succ]
    congr 1 <;> ring

theorem bowl_descent_normSq (i : Nat) :
    normSq (grad_quadratic (descent_reference (1 / 100 : K) grad_quadratic ⟨2, 2⟩ i)) =
      32 * ((49 / 50) ^ i) ^ 2 := by
  rw [bowl_descent_closed_form]
  simp only [normSq, grad_quadratic]
  ring

theorem bowl_descent_iterations (sqrt : K → K) (obs : Vec2 K → σ → σ) (env : σ) :
    (gradient_descent sqrt ⟨2, 2⟩ (1 / 100) 1000 (1 / 10000) (observed grad_quadratic obs)
      env).1.iterations = 542 := by
  rw [gradient_descent_eq_drive]
  refine drive_iter_eq_of_first_stop id (descent_update (1 / 100)) 1000 (1 / 10000)
    grad_quadratic obs ⟨2, 2⟩ env 542 (by norm_num) ?_ ?_
  · rw [← descent_reference_eq_iterate, id, bowl_descent_normSq]
    norm_num
  · intro i hi
    rw [← descent_reference_eq_iterate, id, bowl_descent_normSq, not_lt]
    have h1 : ((49 / 50 : K)) ^ 541 ≤ (49 / 50) ^ i :=
      pow_le_pow_of_le_one (by norm_num) (by norm_num) (by omega)
    have h2 : ((49 / 50 : K) ^ 541) ^ 2 ≤ ((49 / 50) ^ i) ^ 2 :=
      pow_le_pow_left₀ (by positivity) h1 2
    have h3 : (1 / 10000 * (1 / 10000) : K) ≤ 32 * ((49 / 50 : K) ^ 541) ^ 2 := by
      norm_num
    linarith

theorem bowl_momentum_closed_form (i : Nat) :
    momentum_reference (1 / 100 : K) (9 / 10) grad_quadratic ⟨2, 2⟩ i =
      (⟨(momentum_bowl_numerators i).1 / 50 ^ i, (momentum_bowl_numerators i).1 / 50 ^ i⟩,
        ⟨(momentum_bowl_numerators i).2 / 50 ^ i, (momentum_bowl_numerators i).2 / 50 ^ i⟩) := by
  induction i with
  | zero => simp [momentum_reference, momentum_bowl_numerators]
  | succ n ih =>
    simp only [momentum_reference, ih, grad_quadratic, momentum_bowl_numerators, pow_succ,
      Prod.mk.injEq, Vec2.mk.injEq]
    push_cast
    refine ⟨⟨?_, ?_⟩, ⟨?_, ?_⟩⟩ <;> (field_simp; ring)

theorem bowl_momentum_stop_iff (i : Nat) :
    normSq (grad_quadratic (momentum_reference (1 / 100 : K) (9 / 10) grad_quadratic
        ⟨2, 2⟩ i).1) < 1 / 10000 * (1 / 10000) ↔
      8 * 10 ^ 8 * (momentum_bowl_numerators i).1 ^ 2 < 50 ^ (2 * i) := by
  rw [bowl_momentum_closed_form]
  have e : normSq (grad_quadratic (⟨((momentum_bowl_numerators i).1 : K) / 50 ^ i,
        ((momentum_bowl_numerators i).1 : K) / 50 ^ i⟩ : Vec2 K)) =
      (8 * ((momentum_bowl_numerators i).1 : K) ^ 2) / 50 ^ (2 * i) := by
    simp only [normSq, grad_quadratic]
    rw [pow_mul']
    field_simp
    ring
  have t : (1 / 10000 * (1 / 10000) : K) = 1 / 10 ^ 8 := by norm_num
  rw [e, t, div_lt_div_iff₀ (by positivity) (by positivity)]
  constructor
  · intro h
    have h2 : (((8 * 10 ^ 8 * (momentum_bowl_numerators i).1 ^ 2 : Int)) : K) <
        ((50 ^ (2 * i) : Int) : K) := by
      push_cast
      linarith
    exact_mod_cast h2
  · intro h
    have h2 : (((8 * 10 ^ 8 * (momentum_bowl_numerators i).1 ^ 2 : Int)) : K) <
        ((50 ^ (2 * i) : Int) : K) := by
      exact_mod_cast h
    push_cast at h2
    linarith

theorem bowl_momentum_first_stop :
    8 * 10 ^ 8 * (momentum_bowl_numerators 153).1 ^ 2 < 50 ^ (2 * 153) ∧
    ∀ i, i < 153 → ¬ 8 * 10 ^ 8 * (momentum_bowl_numerators i).1 ^ 2 < 50 ^ (2 * i) := by
  decide!

theorem bowl_momentum_iterations (sqrt : K → K) (obs : Vec2 K → σ → σ) (env : σ) :
    (gradient_descent_momentum sqrt ⟨2, 2⟩ (1 / 100) (9 / 10) 1000 (1 / 10000)
      (observed grad_quadratic obs) env).1.iterations = 153 := by
  rw [momentum_eq_drive]
  refine drive_iter_eq_of_first_stop Prod.fst (momentum_update (1 / 100) (9 / 10)) 1000
    (1 / 10000) grad_quadratic obs (⟨2, 2⟩, ⟨0, 0⟩) env 153 (by norm_num) ?_ ?_
  · rw [← momentum_reference_eq_iterate, bowl_momentum_stop_iff]
    exact bowl_momentum_first_stop.1
  · intro i hi
    rw [← momentum_reference_eq_iterate, bowl_momentum_stop_iff]
    exact bowl_momentum_first_stop.2 i hi

/-- C11. Scenario 1 in exact arithmetic (any ordered field, in particular the rationals):
plain descent on `gradient (x, y) = (2x, 2y)` from `(2, 2)` with `alpha = 1/100`,
`max_iters = 1000`, `tol = 1/10000` returns `iterations = 542 < 1000`, and its final point is
within `1/1000` of the origin (in Euclidean distance and in each coordinate). -/
theorem scenario_descent_on_bowl (sqrt : K → K) (obs : Vec2 K → σ → σ) (env : σ) :
    (gradient_descent sqrt ⟨2, 2⟩ (1 / 100) 1000 (1 / 10000) (observed grad_quadratic obs)
      env).1.iterations = 542 ∧
    (gradient_descent sqrt ⟨2, 2⟩ (1 / 100) 1000 (1 / 10000) (observed grad_quadratic obs)
      env).1.iterations < 1000 ∧
    (gradient_descent sqrt ⟨2, 2⟩ (1 / 100) 1000 (1 / 10000) (observed grad_quadratic obs)
        env).1.final_point.x ^ 2 +
      (gradient_descent sqrt ⟨2, 2⟩ (1 / 100) 1000 (1 / 10000) (observed grad_quadratic obs)
        env).1.final_point.y ^ 2 < (1 / 1000) ^ 2 ∧
    |(gradient_descent sqrt ⟨2, 2⟩ (1 / 100) 1000 (1 / 10000) (observed grad_quadratic obs)
        env).1.final_point.x| < 1 / 1000 ∧
    |(gradient_descent sqrt ⟨2, 2⟩ (1 / 100) 1000 (1 / 10000) (observed grad_quadratic obs)
        env).1.final_point.y| < 1 / 1000 := by
  have hi := bowl_descent_iterations sqrt obs env
  have hp : (gradient_descent sqrt ⟨2, 2⟩ (1 / 100) 1000 (1 / 10000)
      (observed grad_quadratic obs) env).1.final_point =
      ⟨2 * (49 / 50) ^ 542, 2 * (49 / 50) ^ 542⟩ := by
    rw [← bowl_descent_closed_form, ← hi, descent_reference_eq_iterate,
      gradient_descent_eq_drive]
    exact (drive_observed_spec id (descent_update (1 / 100)) 1000 (1 / 10000) grad_quadratic
      obs ⟨2, 2⟩ env).2.2.2
  have hsmall : (2 * (49 / 50) ^ 542 : K) < 1 / 1000 := by norm_num
  have hpos : (0 : K) ≤ 2 * (49 / 50) ^ 542 := by positivity
  rw [hp, hi]
  refine ⟨rfl, by norm_num, by norm_num, ?_, ?_⟩
  · rw [abs_of_nonneg hpos]; exact hsmall
  · rw [abs_of_nonneg hpos]; exact hsmall

/-- C12. Scenario 2 in exact arithmetic: on the same bowl, start and parameters, classical
momentum with `beta = 9/10` returns `iterations = 153`, plain descent returns `542`; so the
momentum count is at most the plain one and the momentum run stops by tolerance
(`iterations < 1000`). -/
theorem scenario_momentum_on_bowl (sqrt : K → K) (obs : Vec2 K → σ → σ) (env : σ) :
    (gradient_descent_momentum sqrt ⟨2, 2⟩ (1 / 100) (9 / 10) 1000 (1 / 10000)
      (observed grad_quadratic obs) env).1.iterations = 153 ∧
    (gradient_descent sqrt ⟨2, 2⟩ (1 / 100) 1000 (1 / 10000) (observed grad_quadratic obs)
      env).1.iterations = 542 ∧
    (gradient_descent_momentum sqrt ⟨2, 2⟩ (1 / 100) (9 / 10) 1000 (1 / 10000)
      (observed grad_quadratic obs) env).1.iterations ≤
      (gradient_descent sqrt ⟨2, 2⟩ (1 / 100) 1000 (1 / 10000) (observed grad_quadratic obs)
        env).1.iterations ∧
    (gradient_descent_momentum sqrt ⟨2, 2⟩ (1 / 100) (9 / 10) 1000 (1 / 10000)
      (observed grad_quadratic obs) env).1.iterations < 1000 := by
  rw [bowl_descent_iterations sqrt obs env, bowl_momentum_iterations sqrt obs env]
  exact ⟨rfl, rfl, by norm_num, by norm_num⟩

end Scenario

/-! ## The benchmark gradients against their objectives -/

section Objectives

/-- C14. `grad_rosenbrock` is the gradient of the Rosenbrock objective
`(1 - x)^2 + 100 * (y - x^2)^2` at every real point: its components are the partial
derivatives in `x` and in `y`. -/
theorem grad_rosenbrock_is_gradient (x y : ℝ) :
    HasDerivAt (fun t => rosenbrock t y) (grad_rosenbrock (⟨x, y⟩ : Vec2 ℝ)).x x ∧
    HasDerivAt (fun t => rosenbrock x t) (grad_rosenbrock (⟨x, y⟩ : Vec2 ℝ)).y y := by
  constructor
  · have h := (((hasDerivAt_id x).const_sub 1).pow 2).add
      ((((hasDerivAt_id x).pow 2).const_sub y).pow 2 |>.const_mul 100)
    convert h using 1
    simp only [grad_rosenbrock, id]
    ring
  · have h := (hasDerivAt_const y ((1 - x) ^ 2)).add
      ((((hasDerivAt_id y).sub_const (x ^ 2)).pow 2).const_mul 100)
    convert h using 1
    simp only [grad_rosenbrock, id]
    ring

/-- C15. `grad_himmelblau` is the gradient of the Himmelblau objective
`(x^2 + y - 11)^2 + (x + y^2 - 7)^2` at every real point: its components are the partial
derivatives in `x` and in `y`. -/
theorem grad_himmelblau_is_gradient (x y : ℝ) :
    HasDerivAt (fun t => himmelblau t y) (grad_himmelblau (⟨x, y⟩ : Vec2 ℝ)).x x ∧
    HasDerivAt (fun t => himmelblau x t) (grad_himmelblau (⟨x, y⟩ : Vec2 ℝ)).y y := by
  constructor
  · have h := (((((hasDerivAt_id x).pow 2).add_const y).sub_const 11).pow 2).add
      ((((hasDerivAt_id x).add_const (y ^ 2)).sub_const 7).pow 2)
    convert h using 1
    simp only [grad_himmelblau, id]
    ring
  · have h := ((((hasDerivAt_id y).const_add (x ^ 2)).sub_const 11).pow 2).add
      (((((hasDerivAt_id y).pow 2).const_add x).sub_const 7).pow 2)
    convert h using 1
    simp only [grad_himmelblau, id]
    ring

theorem beale_partial_x (x y : ℝ) :
    HasDerivAt (fun t => beale t y)
      (2 * (1.5 - x + x * y) * (y - 1) + 2 * (2.25 - x + x * y ^ 2) * (y ^ 2 - 1) +
        2 * (2.625 - x + x * y ^ 3) * (y ^ 3 - 1)) x := by
  have h := (((((hasDerivAt_id x).const_sub 1.5).add ((hasDerivAt_id x).mul_const y)).pow 2).add
      ((((hasDerivAt_id x).const_sub 2.25).add ((hasDerivAt_id x).mul_const (y ^ 2))).pow 2)).add
      ((((hasDerivAt_id x).const_sub 2.625).add ((hasDerivAt_id x).mul_const (y ^ 3))).pow 2)
  convert h using 1
  simp only [id]
  ring

theorem beale_partial_y (x y : ℝ) :
    HasDerivAt (fun t => beale x t) (grad_beale (⟨x, y⟩ : Vec2 ℝ)).y y := by
  have h := (((((hasDerivAt_id y).const_mul x).const_add (1.5 - x)).pow 2).add
      (((((hasDerivAt_id y).pow 2).const_mul x).const_add (2.25 - x)).pow 2)).add
      (((((hasDerivAt_id y).pow 3).const_mul x).const_add (2.625 - x)).pow 2)
  convert h using 1
  simp only [grad_beale, id]
  ring

/-- C13, at the failing input `(1, 1)` (the default start of the `beale` entry): along
`y = 1` the Beale objective has partial derivative `0` in `x`, but the first component of
`grad_beale (1, 1)` is `-12.75`, so it is not that partial derivative; the second component
is the partial derivative in `y` at every point. -/
theorem grad_beale_x_component_wrong :
    HasDerivAt (fun t => beale t (1 : ℝ)) 0 1 ∧
    (grad_beale (⟨1, 1⟩ : Vec2 ℝ)).x = -12.75 ∧
    ¬ HasDerivAt (fun t => beale t (1 : ℝ)) (grad_beale (⟨1, 1⟩ : Vec2 ℝ)).x 1 ∧
    ∀ x y : ℝ, HasDerivAt (fun t => beale x t) (grad_beale (⟨x, y⟩ : Vec2 ℝ)).y y := by
  have h0 : HasDerivAt (fun t => beale t (1 : ℝ)) 0 1 := by
    have h := beale_partial_x 1 1
    convert h using 1
    norm_num
  have hx : (grad_beale (⟨1, 1⟩ : Vec2 ℝ)).x = -12.75 := by
    simp only [grad_beale]
    norm_num
  refine ⟨h0, hx, fun h => ?_, beale_partial_y⟩
  have e := h.unique h0
  rw [hx] at e
  norm_num at e

end Objectives

/-! ## Outcome label, early stops and budget monotonicity -/

section Outcome

variable {K σ : Type} [LinearOrderedField K]

theorem record_stopping_cases (res : OptimizerResult K) (max_iters : Nat) (tol : K)
    (hle : res.iterations ≤ max_iters)
    (htol : res.iterations < max_iters → res.final_grad_norm < tol) :
    (record_stopping res max_iters tol = "max iterations reached" ↔
      res.iterations = max_iters) ∧
    (record_stopping res max_iters tol = "tolerance reached" ↔ res.iterations < max_iters) ∧
    record_stopping res max_iters tol ≠ "convergence" := by
  unfold record_stopping
  by_cases h : res.iterations ≥ max_iters
  · have he : res.iterations = max_iters := Nat.le_antisymm hle h
    have hn : ¬ res.iterations < max_iters := by omega
    rw [if_pos h]
    exact ⟨⟨fun _ => he, fun _ => rfl⟩, ⟨fun hh => absurd hh (by decide), fun hh => absurd hh hn⟩,
      by decide⟩
  · have hlt : res.iterations < max_iters := by omega
    have hne : res.iterations ≠ max_iters := by omega
    rw [if_neg h, if_pos (htol hlt)]
    exact ⟨⟨fun hh => absurd hh (by decide), fun hh => absurd hh hne⟩,
      ⟨fun _ => hlt, fun _ => rfl⟩, by decide⟩

theorem runLength_min {τ : Type} (probe : τ → Vec2 K) (update : τ → Vec2 K → τ)
    (tol : K) (gfn : Vec2 K → Vec2 K) (n d : Nat) (t : τ) :
    runLength probe update gfn tol n t = min n (runLength probe update gfn tol (n + d) t) := by
  induction n generalizing t with
  | zero => simp [runLength]
  | succ n ih =>
    have e : n + 1 + d = (n + d) + 1 := by omega
    rw [e]
    simp only [runLength]
    split_ifs with h
    · simp
    · rw [ih (advance probe update gfn t)]
      omega

theorem drive_budget_monotone {τ : Type} (probe : τ → Vec2 K) (update : τ → Vec2 K → τ)
    (tol : K) (gfn : Vec2 K → Vec2 K) (t : τ) (n m : Nat) (h : n ≤ m) :
    (drive probe update n tol (recording gfn) n (DriveVars.start t [])).iter =
      min n (drive probe update m tol (recording gfn) m (DriveVars.start t [])).iter ∧
    ∃ rest, (drive probe update n tol (recording gfn) n (DriveVars.start t [])).env ++ rest =
      (drive probe update m tol (recording gfn) m (DriveVars.start t [])).env := by
  obtain ⟨d, rfl⟩ : ∃ d, m = n + d := ⟨m - n, by omega⟩
  have hz : ∀ k, (DriveVars.start t [] : DriveVars τ K (List (Vec2 K))).iter + k ≤ k := by
    intro k; simp [DriveVars.start]
  have hs : (DriveVars.start t [] : DriveVars τ K (List (Vec2 K))).pos = t := rfl
  have h0 : (DriveVars.start t [] : DriveVars τ K (List (Vec2 K))).iter = 0 := rfl
  have hin : (drive probe update n tol (recording gfn) n (DriveVars.start t [])).iter =
      runLength probe update gfn tol n t := by
    have := drive_observed_iter probe update n tol gfn (fun p path => path ++ [p]) n
      (DriveVars.start t []) (hz n)
    rw [hs, h0, Nat.zero_add] at this
    exact this
  have him : (drive probe update (n + d) tol (recording gfn) (n + d)
      (DriveVars.start t [])).iter = runLength probe update gfn tol (n + d) t := by
    have := drive_observed_iter probe update (n + d) tol gfn (fun p path => path ++ [p])
      (n + d) (DriveVars.start t []) (hz (n + d))
    rw [hs, h0, Nat.zero_add] at this
    exact this
  have hmin := runLength_min probe update tol gfn n d t
  have hle := runLength_le probe update tol gfn (n + d) t
  refine ⟨by rw [hin, him]; exact hmin, ?_⟩
  rw [drive_recording_path probe update n tol gfn t,
    drive_recording_path probe update (n + d) tol gfn t, hin, him]
  obtain ⟨c, hc⟩ : ∃ c, min (runLength probe update gfn tol (n + d) t + 1) (n + d) =
      min (runLength probe update gfn tol n t + 1) n + c :=
    ⟨min (runLength probe update gfn tol (n + d) t + 1) (n + d) -
      min (runLength probe update gfn tol n t + 1) n, by omega⟩
  rw [hc, List.range_add, List.map_append]
  exact ⟨_, rfl⟩

theorem results_within_contract (initial : Vec2 ℝ) (alpha beta : ℝ) (max_iters : Nat) (tol : ℝ)
    (gradient : Vec2 ℝ → σ → Vec2 ℝ × σ) (env : σ) (htol : 0 < tol) :
    ∀ res, res ∈ [(gradient_descent Real.sqrt initial alpha max_iters tol gradient env).1,
        (gradient_descent_momentum Real.sqrt initial alpha beta max_iters tol gradient env).1,
        (nesterov_momentum Real.sqrt initial alpha beta max_iters tol gradient env).1] →
      res.iterations ≤ max_iters ∧
      (res.iterations < max_iters → res.final_grad_norm < tol) := by
  intro res hres
  rw [gradient_descent_eq_drive, momentum_eq_drive, nesterov_eq_drive] at hres
  simp only [List.mem_cons, List.mem_singleton, List.not_mem_nil, or_false] at hres
  rcases hres with rfl | rfl | rfl
  all_goals
    refine ⟨drive_iter_le _ _ _ _ _ _ _ (Nat.zero_le _), fun h => ?_⟩
    rw [Real.sqrt_lt' htol, sq]
    exact drive_tolerance _ _ max_iters tol gradient max_iters _
      (by simp [DriveVars.start]) h

/-- Exact reals with `tol > 0`: the label of `record` is decided by `iterations` alone. -/
theorem outcome_label_exact (initial : Vec2 ℝ) (alpha beta : ℝ) (max_iters : Nat)
    (tol : ℝ) (gradient : Vec2 ℝ → σ → Vec2 ℝ × σ) (env : σ) (htol : 0 < tol) :
    ∀ res, res ∈ [(gradient_descent Real.sqrt initial alpha max_iters tol gradient env).1,
        (gradient_descent_momentum Real.sqrt initial alpha beta max_iters tol gradient env).1,
        (nesterov_momentum Real.sqrt initial alpha beta max_iters tol gradient env).1] →
      (record_stopping res max_iters tol = "max iterations reached" ↔
        res.iterations = max_iters) ∧
      (record_stopping res max_iters tol = "tolerance reached" ↔
        res.iterations < max_iters) ∧
      record_stopping res max_iters tol ≠ "convergence" := by
  intro res hres
  obtain ⟨hle, ht⟩ := results_within_contract initial alpha beta max_iters tol gradient env
    htol res hres
  exact record_stopping_cases res max_iters tol hle ht

/-- C17. Nesterov does not degenerate into classical momentum: on the quadratic bowl from
`(2, 2)` with `alpha = 1/100`, `beta = 9/10`, `max_iters = 2`, `tol = 1/10000` (exact
arithmetic) the two variants probe different second points and return different final
points. -/
theorem nesterov_differs_from_momentum (sqrt : ℚ → ℚ) :
    (nesterov_momentum sqrt ⟨2, 2⟩ (1 / 100) (9 / 10) 2 (1 / 10000)
      (recording grad_quadratic) []).2 = [⟨2, 2⟩, ⟨481 / 250, 481 / 250⟩] ∧
    (gradient_descent_momentum sqrt ⟨2, 2⟩ (1 / 100) (9 / 10) 2 (1 / 10000)
      (recording grad_quadratic) []).2 = [⟨2, 2⟩, ⟨49 / 25, 49 / 25⟩] ∧
    (nesterov_momentum sqrt ⟨2, 2⟩ (1 / 100) (9 / 10) 2 (1 / 10000)
      (recording grad_quadratic) []).1.final_point = ⟨23569 / 12500, 23569 / 12500⟩ ∧
    (gradient_descent_momentum sqrt ⟨2, 2⟩ (1 / 100) (9 / 10) 2 (1 / 10000)
      (recording grad_quadratic) []).1.final_point = ⟨1178 / 625, 1178 / 625⟩ ∧
    (nesterov_momentum sqrt ⟨2, 2⟩ (1 / 100) (9 / 10) 2 (1 / 10000)
      (recording grad_quadratic) []).1.final_point ≠
      (gradient_descent_momentum sqrt ⟨2, 2⟩ (1 / 100) (9 / 10) 2 (1 / 10000)
        (recording grad_quadratic) []).1.final_point ∧
    (nesterov_momentum sqrt ⟨2, 2⟩ (1 / 100) (9 / 10) 2 (1 / 10000)
      (recording grad_quadratic) []).2[1]? ≠
      (gradient_descent_momentum sqrt ⟨2, 2⟩ (1 / 100) (9 / 10) 2 (1 / 10000)
        (recording grad_quadratic) []).2[1]? := by
  have hn : nesterov_momentum sqrt ⟨2, 2⟩ (1 / 100) (9 / 10) 2 (1 / 10000)
      (recording grad_quadratic) [] =
      (⟨⟨23569 / 12500, 23569 / 12500⟩, 2, sqrt (462722 / 15625)⟩,
        [⟨2, 2⟩, ⟨481 / 250, 481 / 250⟩]) := by
    simp only [nesterov_momentum, nesterov_momentum_loop, recording, grad_quadratic]
    norm_num
  have hm : gradient_descent_momentum sqrt ⟨2, 2⟩ (1 / 100) (9 / 10) 2 (1 / 10000)
      (recording grad_quadratic) [] =
      (⟨⟨1178 / 625, 1178 / 625⟩, 2, sqrt (19208 / 625)⟩,
        [⟨2, 2⟩, ⟨49 / 25, 49 / 25⟩]) := by
    simp only [gradient_descent_momentum, gradient_descent_momentum_loop, recording,
      grad_quadratic]
    norm_num
  rw [hn, hm]
  refine ⟨rfl, rfl, rfl, rfl, ?_, ?_⟩
  · simp only [ne_eq, Vec2.mk.injEq, not_and]
    norm_num
  · simp only [List.getElem?_cons_succ, List.getElem?_cons_zero, ne_eq, Option.some.injEq,
      Vec2.mk.injEq, not_and]
    norm_num

/-- Exact reals with `tol > 0`: on an early stop of plain descent or classical momentum the
reported norm is the gradient norm at the final point, below `tol`. -/
theorem early_stop_exact (initial : Vec2 ℝ) (alpha beta : ℝ) (max_iters : Nat)
    (tol : ℝ) (gfn : Vec2 ℝ → Vec2 ℝ) (obs : Vec2 ℝ → σ → σ) (env : σ) (htol : 0 < tol) :
    ((gradient_descent Real.sqrt initial alpha max_iters tol (observed gfn obs)
        env).1.iterations < max_iters →
      (gradient_descent Real.sqrt initial alpha max_iters tol (observed gfn obs)
          env).1.final_grad_norm =
        Real.sqrt (normSq (gfn (gradient_descent Real.sqrt initial alpha max_iters tol
          (observed gfn obs) env).1.final_point)) ∧
      Real.sqrt (normSq (gfn (gradient_descent Real.sqrt initial alpha max_iters tol
          (observed gfn obs) env).1.final_point)) < tol) ∧
    ((gradient_descent_momentum Real.sqrt initial alpha beta max_iters tol (observed gfn obs)
        env).1.iterations < max_iters →
      (gradient_descent_momentum Real.sqrt initial alpha beta max_iters tol (observed gfn obs)
          env).1.final_grad_norm =
        Real.sqrt (normSq (gfn (gradient_descent_momentum Real.sqrt initial alpha beta
          max_iters tol (observed gfn obs) env).1.final_point)) ∧
      Real.sqrt (normSq (gfn (gradient_descent_momentum Real.sqrt initial alpha beta
          max_iters tol (observed gfn obs) env).1.final_point)) < tol) := by
  rw [gradient_descent_eq_drive, momentum_eq_drive]
  constructor
  · intro h
    have e := drive_early_stop_norm id (descent_update alpha) max_iters tol gfn obs initial
      env h
    have t := drive_tolerance id (descent_update alpha) max_iters tol (observed gfn obs)
      max_iters (DriveVars.start initial env) (by simp [DriveVars.start]) h
    refine ⟨congrArg Real.sqrt e, ?_⟩
    rw [Real.sqrt_lt' htol, sq]
    rw [e] at t
    exact t
  · intro h
    have e := drive_early_stop_norm Prod.fst (momentum_update alpha beta) max_iters tol gfn
      obs (initial, ⟨0, 0⟩) env h
    have t := drive_tolerance Prod.fst (momentum_update alpha beta) max_iters tol
      (observed gfn obs) max_iters (DriveVars.start (initial, ⟨0, 0⟩) env)
      (by simp [DriveVars.start]) h
    refine ⟨congrArg Real.sqrt e, ?_⟩
    rw [Real.sqrt_lt' htol, sq]
    rw [e] at t
    exact t

theorem nesterov_lookahead_run {F : Type} [LinearOrderedField F] (sqrt : F → F) :
    nesterov_momentum sqrt ⟨3, 3⟩ (1 / 3) (1 / 2) 10 (1 / 10000)
        (recording grad_quadratic) [] =
      (⟨⟨1, 1⟩, 1, sqrt 0⟩, [⟨3, 3⟩, ⟨0, 0⟩]) := by
  unfold nesterov_momentum
  rw [show (10 : Nat) = 8 + 1 + 1 from rfl]
  rw [nesterov_momentum_loop]
  norm_num [recording, grad_quadratic]
  rw [nesterov_momentum_loop]
  norm_num [recording, grad_quadratic]

/-- C19. Nesterov can report a tolerance stop at a point that does not satisfy the tolerance:
on the quadratic bowl from `(3, 3)` with `alpha = 1/3`, `beta = 1/2`, `max_iters = 10`,
`tol = 1/10000` over the reals it returns `final_point = (1, 1)`, `iterations = 1 < 10` and
`final_grad_norm = 0 < tol` (the stop test saw the lookahead `(0, 0)`), yet the norm of the
gradient at `final_point` is at least `tol`. -/
theorem nesterov_stop_not_at_final_point :
    (nesterov_momentum Real.sqrt (⟨3, 3⟩ : Vec2 ℝ) (1 / 3) (1 / 2) 10 (1 / 10000)
      (recording grad_quadratic) []).1 = ⟨⟨1, 1⟩, 1, 0⟩ ∧
    (nesterov_momentum Real.sqrt (⟨3, 3⟩ : Vec2 ℝ) (1 / 3) (1 / 2) 10 (1 / 10000)
      (recording grad_quadratic) []).2 = [⟨3, 3⟩, ⟨0, 0⟩] ∧
    (nesterov_momentum Real.sqrt (⟨3, 3⟩ : Vec2 ℝ) (1 / 3) (1 / 2) 10 (1 / 10000)
      (recording grad_quadratic) []).1.iterations < 10 ∧
    (nesterov_momentum Real.sqrt (⟨3, 3⟩ : Vec2 ℝ) (1 / 3) (1 / 2) 10 (1 / 10000)
      (recording grad_quadratic) []).1.final_grad_norm < 1 / 10000 ∧
    (1 / 10000 : ℝ) ≤ Real.sqrt (normSq (grad_quadratic
      (nesterov_momentum Real.sqrt (⟨3, 3⟩ : Vec2 ℝ) (1 / 3) (1 / 2) 10 (1 / 10000)
        (recording grad_quadratic) []).1.final_point)) := by
  rw [nesterov_lookahead_run Real.sqrt, Real.sqrt_zero]
  refine ⟨rfl, rfl, by norm_num, by norm_num, ?_⟩
  rw [Real.le_sqrt' (by norm_num)]
  simp only [normSq, grad_quadratic]
  norm_num

/-- C20. Budget monotonicity under the recording callback of `main`: for each of the three
optimizers and budgets `n <= m` with all other inputs fixed, the run with `max_iters = n`
returns `iterations = min n (iterations of the run with max_iters = m)`, and the points it
probes are a prefix of those probed by the run with `max_iters = m`. -/
theorem budget_monotonicity (sqrt : K → K) (initial : Vec2 K) (alpha beta tol : K)
    (gfn : Vec2 K → Vec2 K) (n m : Nat) (h : n ≤ m) :
    ((gradient_descent sqrt initial alpha n tol (recording gfn) []).1.iterations =
        min n (gradient_descent sqrt initial alpha m tol (recording gfn) []).1.iterations ∧
      ∃ rest, (gradient_descent sqrt initial alpha n tol (recording gfn) []).2 ++ rest =
        (gradient_descent sqrt initial alpha m tol (recording gfn) []).2) ∧
    ((gradient_descent_momentum sqrt initial alpha beta n tol (recording gfn)
          []).1.iterations =
        min n (gradient_descent_momentum sqrt initial alpha beta m tol (recording gfn)
          []).1.iterations ∧
      ∃ rest, (gradient_descent_momentum sqrt initial alpha beta n tol (recording gfn)
          []).2 ++ rest =
        (gradient_descent_momentum sqrt initial alpha beta m tol (recording gfn) []).2) ∧
    ((nesterov_momentum sqrt initial alpha beta n tol (recording gfn) []).1.iterations =
        min n (nesterov_momentum sqrt initial alpha beta m tol (recording gfn)
          []).1.iterations ∧
      ∃ rest, (nesterov_momentum sqrt initial alpha beta n tol (recording gfn) []).2 ++ rest =
        (nesterov_momentum sqrt initial alpha beta m tol (recording gfn) []).2) := by
  simp only [gradient_descent_eq_drive, momentum_eq_drive, nesterov_eq_drive]
  exact ⟨drive_budget_monotone _ _ tol gfn _ n m h, drive_budget_monotone _ _ tol gfn _ n m h,
    drive_budget_monotone _ _ tol gfn _ n m h⟩

/-- Witness of C20: the quadratic bowl from `(2, 2)` with budgets 1 and 3. -/
theorem budget_monotonicity_witness :
    1 ≤ 3 ∧
    ((gradient_descent id (⟨2, 2⟩ : Vec2 ℚ) (1 / 100) 1 (1 / 10000)
          (recording grad_quadratic) []).1.iterations =
        min 1 (gradient_descent id (⟨2, 2⟩ : Vec2 ℚ) (1 / 100) 3 (1 / 10000)
          (recording grad_quadratic) []).1.iterations ∧
      ∃ rest, (gradient_descent id (⟨2, 2⟩ : Vec2 ℚ) (1 / 100) 1 (1 / 10000)
          (recording grad_quadratic) []).2 ++ rest =
        (gradient_descent id (⟨2, 2⟩ : Vec2 ℚ) (1 / 100) 3 (1 / 10000)
          (recording grad_quadratic) []).2) ∧
    ((gradient_descent_momentum id (⟨2, 2⟩ : Vec2 ℚ) (1 / 100) (9 / 10) 1 (1 / 10000)
          (recording grad_quadratic) []).1.iterations =
        min 1 (gradient_descent_momentum id (⟨2, 2⟩ : Vec2 ℚ) (1 / 100) (9 / 10) 3
          (1 / 10000) (recording grad_quadratic) []).1.iterations ∧
      ∃ rest, (gradient_descent_momentum id (⟨2, 2⟩ : Vec2 ℚ) (1 / 100) (9 / 10) 1
          (1 / 10000) (recording grad_quadratic) []).2 ++ rest =
        (gradient_descent_momentum id (⟨2, 2⟩ : Vec2 ℚ) (1 / 100) (9 / 10) 3 (1 / 10000)
          (recording grad_quadratic) []).2) ∧
    ((nesterov_momentum id (⟨2, 2⟩ : Vec2 ℚ) (1 / 100) (9 / 10) 1 (1 / 10000)
          (recording grad_quadratic) []).1.iterations =
        min 1 (nesterov_momentum id (⟨2, 2⟩ : Vec2 ℚ) (1 / 100) (9 / 10) 3 (1 / 10000)
          (recording grad_quadratic) []).1.iterations ∧
      ∃ rest, (nesterov_momentum id (⟨2, 2⟩ : Vec2 ℚ) (1 / 100) (9 / 10) 1 (1 / 10000)
          (recording grad_quadratic) []).2 ++ rest =
        (nesterov_momentum id (⟨2, 2⟩ : Vec2 ℚ) (1 / 100) (9 / 10) 3 (1 / 10000)
          (recording grad_quadratic) []).2) :=
  ⟨by decide,
    budget_monotonicity id (⟨2, 2⟩ : Vec2 ℚ) (1 / 100) (9 / 10) (1 / 10000) grad_quadratic 1 3
      (by decide)⟩

end Outcome

/-! ## The rounding tools of the binary64 model -/

section RoundingTools

theorem log2Bits_spec (n fuel j b : Nat) (h : 64 ≤ j + fuel) (hb : b ≤ 64)
    (hn : n < 2 ^ 2 ^ b) :
    n < 2 ^ 2 ^ log2Bits n fuel j := by
  induction fuel generalizing j with
  | zero =>
    simp only [log2Bits]
    exact Nat.lt_of_lt_of_le hn
      (Nat.pow_le_pow_right (by decide) (Nat.pow_le_pow_right (by decide) (by omega)))
  | succ f ih =>
    simp only [log2Bits]
    split_ifs with h1
    · exact h1
    · exact ih (j + 1) (by omega)

theorem log2Search_spec (n j e : Nat) (h1 : 2 ^ e ≤ n) (h2 : n < 2 ^ (e + 2 ^ j)) :
    2 ^ log2Search n j e ≤ n ∧ n < 2 ^ (log2Search n j e + 1) := by
  induction j generalizing e with
  | zero =>
    simp only [log2Search]
    exact ⟨h1, by simpa using h2⟩
  | succ j ih =>
    simp only [log2Search]
    split_ifs with h3
    · refine ih (e + 2 ^ j) h3 ?_
      have e2 : e + 2 ^ j + 2 ^ j = e + 2 ^ (j + 1) := by rw [pow_succ]; omega
      rw [e2]
      exact h2
    · exact ih e h1 (by omega)

/-- The binary logarithm `ilog2` is exact: `2^(ilog2 n) ≤ n < 2^(ilog2 n + 1)` for every
`n > 0` below `2^(2^b)` with `b ≤ 64`. -/
theorem ilog2_spec (n b : Nat) (h0 : 0 < n) (hb : b ≤ 64) (hn : n < 2 ^ 2 ^ b) :
    2 ^ ilog2 n ≤ n ∧ n < 2 ^ (ilog2 n + 1) := by
  unfold ilog2
  refine log2Search_spec n _ 0 (by simpa using h0) ?_
  rw [Nat.zero_add]
  exact log2Bits_spec n 64 0 b (by omega) hb hn

theorem isqrtAux_spec (n k r : Nat) (h1 : r * r ≤ n) (h2 : n < (r + 2 ^ k) * (r + 2 ^ k)) :
    isqrtAux n k r * isqrtAux n k r ≤ n ∧
      n < (isqrtAux n k r + 1) * (isqrtAux n k r + 1) := by
  induction k generalizing r with
  | zero =>
    simp only [isqrtAux]
    exact ⟨h1, by simpa using h2⟩
  | succ k ih =>
    simp only [isqrtAux]
    split_ifs with h3
    · refine ih (r + 2 ^ k) h3 ?_
      have e2 : r + 2 ^ k + 2 ^ k = r + 2 ^ (k + 1) := by rw [pow_succ]; omega
      rw [e2]
      exact h2
    · exact ih r h1 (by omega)

/-- The integer square root `isqrt` is exact: `r * r ≤ n < (r + 1) * (r + 1)` for
`r = isqrt n`, for every `n` below `2^(2^b)` with `b ≤ 64`. -/
theorem isqrt_spec (n b : Nat) (hb : b ≤ 64) (hn : n < 2 ^ 2 ^ b) :
    isqrt n * isqrt n ≤ n ∧ n < (isqrt n + 1) * (isqrt n + 1) := by
  unfold isqrt
  refine isqrtAux_spec n _ 0 (Nat.zero_le _) ?_
  rw [Nat.zero_add, ← pow_add]
  rcases Nat.eq_zero_or_pos n with h | h
  · rw [h]
    exact Nat.pow_pos (by decide)
  · have h2 := (ilog2_spec n b h hb hn).2
    exact Nat.lt_of_lt_of_le h2 (Nat.pow_le_pow_right (by decide) (by omega))

/-- The rounding `roundHalfEven p q` is within one half of `p / q`, and on a tie it is
even. -/
theorem roundHalfEven_spec (p q : Nat) (hq : 0 < q) :
    2 * p ≤ 2 * (roundHalfEven p q * q) + q ∧ 2 * (roundHalfEven p q * q) ≤ 2 * p + q ∧
      (2 * p + q = 2 * (roundHalfEven p q * q) ∨ 2 * p = 2 * (roundHalfEven p q * q) + q →
        roundHalfEven p q % 2 = 0) := by
  have hd : q * (p / q) + p % q = p := Nat.div_add_mod p q
  have hm : p % q < q := Nat.mod_lt p hq
  have hc : p / q * q = q * (p / q) := Nat.mul_comm _ _
  have hs : (p / q + 1) * q = q * (p / q) + q := by rw [Nat.add_mul, Nat.one_mul, hc]
  unfold roundHalfEven
  split_ifs with h1 h2 h3
  · rw [hc]
    refine ⟨by omega, by omega, fun h => ?_⟩
    omega
  · rw [hs]
    refine ⟨by omega, by omega, fun h => ?_⟩
    omega
  · rw [hc]
    exact ⟨by omega, by omega, fun _ => h3⟩
  · rw [hs]
    refine ⟨by omega, by omega, fun _ => ?_⟩
    omega

end RoundingTools

/-! ## Behaviour in binary64 -/

section Binary64

/-- Samples of the binary64 model against known values: `0.1`, `0.1 + 0.2`, `sqrt 2`, the
double nearest to `1e-5` and its square, underflow of `1e-200 * 1e-200`, the largest finite
double, overflow, and `inf - inf`. -/
theorem binary64_samples :
    Double.ofRatio 1 10 = Double.dyadic 0x1999999999999a (-56) ∧
    Double.ofRatio 1 10 + Double.ofRatio 2 10 = Double.dyadic 0x13333333333334 (-54) ∧
    Double.sqrt 2 = Double.dyadic 0x16a09e667f3bcd (-52) ∧
    Double.ofRatio 1 100000 = Double.dyadic 0x14f8b588e368f1 (-69) ∧
    Double.ofRatio 1 100000 * Double.ofRatio 1 100000 =
      Double.dyadic 0x1b7cdfd9d7bdbc (-86) ∧
    Double.ofRatio 1 (10 ^ 200) * Double.ofRatio 1 (10 ^ 200) = 0 ∧
    Double.ofRatio (17976931348623157 * 10 ^ 292) 1 = Double.dyadic 0x1fffffffffffff 971 ∧
    Double.ofRatio (10 ^ 308) 1 * Double.ofRatio 4 1 = Double.inf false ∧
    Double.inf false - Double.inf false = Double.nan := by
  decide!


/-- C10 as stated fails in binary64: on the quadratic bowl from `(2, 2)` with `alpha = 2`,
`max_iters = 1000`, `tol = 1e-4` the iterates of plain descent overflow, `inf - inf` gives
NaN, and the run returns `final_grad_norm = NaN`, for which `0 <= final_grad_norm` is false.
With `alpha = 1e308` and `max_iters = 3` the same happens to all three optimizers. -/
theorem reported_norm_can_be_nan :
    ((gradient_descent Double.sqrt ⟨2, 2⟩ 2 1000 (Double.ofRatio 1 10000)
        (recording grad_quadratic) []).1 = ⟨⟨Double.nan, Double.nan⟩, 1000, Double.nan⟩ ∧
      ¬ (0 : Double) ≤ (gradient_descent Double.sqrt ⟨2, 2⟩ 2 1000 (Double.ofRatio 1 10000)
        (recording grad_quadratic) []).1.final_grad_norm) ∧
    ((gradient_descent Double.sqrt ⟨2, 2⟩ (Double.ofRatio (10 ^ 308) 1) 3
        (Double.ofRatio 1 10000) (recording grad_quadratic) []).1 =
        ⟨⟨Double.nan, Double.nan⟩, 3, Double.nan⟩ ∧
      (gradient_descent_momentum Double.sqrt ⟨2, 2⟩ (Double.ofRatio (10 ^ 308) 1)
        (Double.ofRatio 9 10) 3 (Double.ofRatio 1 10000) (recording grad_quadratic) []).1 =
        ⟨⟨Double.nan, Double.nan⟩, 3, Double.nan⟩ ∧
      (nesterov_momentum Double.sqrt ⟨2, 2⟩ (Double.ofRatio (10 ^ 308) 1)
        (Double.ofRatio 9 10) 3 (Double.ofRatio 1 10000) (recording grad_quadratic) []).1 =
        ⟨⟨Double.nan, Double.nan⟩, 3, Double.nan⟩ ∧
      ¬ (0 : Double) ≤ Double.nan) := by
  set_option maxRecDepth 100000 in decide!

/-- C16 as stated fails in binary64: on the quadratic bowl started at
`(1.037456976449605e-06, 4.8911842146883045e-06)` with `tol = 1e-5 > 0` and
`max_iters = 10`, each optimizer stops at iteration 0 because the squared norm is below
`tol * tol`, but its square root rounds to `tol`, so `final_grad_norm < tol` is false and
`record` selects "convergence" although `iterations < max_iters`. -/
theorem record_selects_convergence :
    (0 : Double) < Double.ofRatio 1 100000 ∧
    (gradient_descent Double.sqrt
        ⟨Double.ofRatio 1037456976449605 (10 ^ 21), Double.ofRatio 48911842146883045 (10 ^ 22)⟩
        (Double.ofRatio 1 100) 10 (Double.ofRatio 1 100000) (recording grad_quadratic) []).1 =
      ⟨⟨Double.ofRatio 1037456976449605 (10 ^ 21), Double.ofRatio 48911842146883045 (10 ^ 22)⟩,
        0, Double.ofRatio 1 100000⟩ ∧
    record_stopping (gradient_descent Double.sqrt
        ⟨Double.ofRatio 1037456976449605 (10 ^ 21), Double.ofRatio 48911842146883045 (10 ^ 22)⟩
        (Double.ofRatio 1 100) 10 (Double.ofRatio 1 100000) (recording grad_quadratic) []).1
      10 (Double.ofRatio 1 100000) = "convergence" ∧
    record_stopping (gradient_descent_momentum Double.sqrt
        ⟨Double.ofRatio 1037456976449605 (10 ^ 21), Double.ofRatio 48911842146883045 (10 ^ 22)⟩
        (Double.ofRatio 1 100) (Double.ofRatio 9 10) 10 (Double.ofRatio 1 100000)
        (recording grad_quadratic) []).1
      10 (Double.ofRatio 1 100000) = "convergence" ∧
    record_stopping (nesterov_momentum Double.sqrt
        ⟨Double.ofRatio 1037456976449605 (10 ^ 21), Double.ofRatio 48911842146883045 (10 ^ 22)⟩
        (Double.ofRatio 1 100) (Double.ofRatio 9 10) 10 (Double.ofRatio 1 100000)
        (recording grad_quadratic) []).1
      10 (Double.ofRatio 1 100000) = "convergence" := by
  set_option maxRecDepth 100000 in decide!

/-- C18 as stated fails in binary64: at the same input plain descent and classical momentum
stop early (`iterations = 0 < 10`) and report the norm of the gradient at `final_point`, but
that norm equals `tol = 1e-5`: it is not `< tol`, although its square passed the test
against `tol * tol`. -/
theorem early_stop_norm_equals_tol :
    (0 : Double) < Double.ofRatio 1 100000 ∧
    ((gradient_descent Double.sqrt
          ⟨Double.ofRatio 1037456976449605 (10 ^ 21),
            Double.ofRatio 48911842146883045 (10 ^ 22)⟩
          (Double.ofRatio 1 100) 10 (Double.ofRatio 1 100000) (recording grad_quadratic)
          []).1.iterations < 10 ∧
      normSq (grad_quadratic (gradient_descent Double.sqrt
          ⟨Double.ofRatio 1037456976449605 (10 ^ 21),
            Double.ofRatio 48911842146883045 (10 ^ 22)⟩
          (Double.ofRatio 1 100) 10 (Double.ofRatio 1 100000) (recording grad_quadratic)
          []).1.final_point) = Double.dyadic 0x1b7cdfd9d7bdbb (-86) ∧
      Double.ofRatio 1 100000 * Double.ofRatio 1 100000 =
        Double.dyadic 0x1b7cdfd9d7bdbc (-86) ∧
      Double.sqrt (normSq (grad_quadratic (gradient_descent Double.sqrt
          ⟨Double.ofRatio 1037456976449605 (10 ^ 21),
            Double.ofRatio 48911842146883045 (10 ^ 22)⟩
          (Double.ofRatio 1 100) 10 (Double.ofRatio 1 100000) (recording grad_quadratic)
          []).1.final_point)) = Double.ofRatio 1 100000 ∧
      ¬ Double.sqrt (normSq (grad_quadratic (gradient_descent Double.sqrt
          ⟨Double.ofRatio 1037456976449605 (10 ^ 21),
            Double.ofRatio 48911842146883045 (10 ^ 22)⟩
          (Double.ofRatio 1 100) 10 (Double.ofRatio 1 100000) (recording grad_quadratic)
          []).1.final_point)) < Double.ofRatio 1 100000) ∧
    ((gradient_descent_momentum Double.sqrt
          ⟨Double.ofRatio 1037456976449605 (10 ^ 21),
            Double.ofRatio 48911842146883045 (10 ^ 22)⟩
          (Double.ofRatio 1 100) (Double.ofRatio 9 10) 10 (Double.ofRatio 1 100000)
          (recording grad_quadratic) []).1.iterations < 10 ∧
      ¬ Double.sqrt (normSq (grad_quadratic (gradient_descent_momentum Double.sqrt
          ⟨Double.ofRatio 1037456976449605 (10 ^ 21),
            Double.ofRatio 48911842146883045 (10 ^ 22)⟩
          (Double.ofRatio 1 100) (Double.ofRatio 9 10) 10 (Double.ofRatio 1 100000)
          (recording grad_quadratic) []).1.final_point)) < Double.ofRatio 1 100000) := by
  set_option maxRecDepth 100000 in decide!

end Binary64

/-! ## The four claims that depend on the arithmetic -/

section Arithmetic

theorem record_stopping_reading {K : Type} [LT K] [∀ a b : K, Decidable (a < b)]
    (res : OptimizerResult K) (max_iters : Nat) (tol : K) (hle : res.iterations ≤ max_iters) :
    (record_stopping res max_iters tol = "max iterations reached" ↔
      res.iterations = max_iters) ∧
    (record_stopping res max_iters tol = "tolerance reached" ↔
      res.iterations < max_iters ∧ res.final_grad_norm < tol) ∧
    (record_stopping res max_iters tol = "convergence" ↔
      res.iterations < max_iters ∧ ¬ res.final_grad_norm < tol) := by
  unfold record_stopping
  by_cases h : res.iterations ≥ max_iters
  · have he : res.iterations = max_iters := Nat.le_antisymm hle h
    have hn : ¬ res.iterations < max_iters := by omega
    rw [if_pos h]
    exact ⟨⟨fun _ => he, fun _ => rfl⟩,
      ⟨fun hh => absurd hh (by decide), fun hh => absurd hh.1 hn⟩,
      ⟨fun hh => absurd hh (by decide), fun hh => absurd hh.1 hn⟩⟩
  · have hlt : res.iterations < max_iters := by omega
    have hne : res.iterations ≠ max_iters := by omega
    rw [if_neg h]
    by_cases ht : res.final_grad_norm < tol
    · rw [if_pos ht]
      exact ⟨⟨fun hh => absurd hh (by decide), fun hh => absurd hh hne⟩,
        ⟨fun _ => ⟨hlt, ht⟩, fun _ => rfl⟩,
        ⟨fun hh => absurd hh (by decide), fun hh => absurd ht hh.2⟩⟩
    · rw [if_neg ht]
      exact ⟨⟨fun hh => absurd hh (by decide), fun hh => absurd hh hne⟩,
        ⟨fun hh => absurd hh (by decide), fun hh => absurd hh.2 ht⟩,
        ⟨fun _ => ⟨hlt, ht⟩, fun _ => rfl⟩⟩

/-- C10, amended. Reported norm. In any arithmetic (exact or binary64), for each of the three
optimizers under the recording callback of `main` and every run with `max_iters >= 1`: a last
probed point `p` exists and `final_grad_norm` is the square root, as the program computes
it, of `g.x * g.x + g.y * g.y` for `g = gradient p`, the gradient returned by the last
callback invocation. In exact real arithmetic this is `sqrt (g.x^2 + g.y^2)` and
`final_grad_norm >= 0`. -/
theorem reported_norm_is_last_probe {K : Type} [Zero K] [Add K] [Sub K] [Mul K] [LT K]
    [∀ a b : K, Decidable (a < b)] (sqrt : K → K) (initial : Vec2 K) (alpha beta : K)
    (max_iters : Nat) (tol : K) (gfn : Vec2 K → Vec2 K) (hbudget : 0 < max_iters) :
    (∃ p, (gradient_descent sqrt initial alpha max_iters tol (recording gfn)
          []).2.getLast? = some p ∧
        (gradient_descent sqrt initial alpha max_iters tol (recording gfn)
          []).1.final_grad_norm = sqrt (normSq (gfn p))) ∧
    (∃ p, (gradient_descent_momentum sqrt initial alpha beta max_iters tol (recording gfn)
          []).2.getLast? = some p ∧
        (gradient_descent_momentum sqrt initial alpha beta max_iters tol (recording gfn)
          []).1.final_grad_norm = sqrt (normSq (gfn p))) ∧
    (∃ p, (nesterov_momentum sqrt initial alpha beta max_iters tol (recording gfn)
          []).2.getLast? = some p ∧
        (nesterov_momentum sqrt initial alpha beta max_iters tol (recording gfn)
          []).1.final_grad_norm = sqrt (normSq (gfn p))) ∧
    (∀ (p0 : Vec2 ℝ) (a b : ℝ) (m : Nat) (t : ℝ) (g : Vec2 ℝ → Vec2 ℝ), 0 < m →
      (∃ p, (gradient_descent Real.sqrt p0 a m t (recording g) []).2.getLast? = some p ∧
          (gradient_descent Real.sqrt p0 a m t (recording g) []).1.final_grad_norm =
            Real.sqrt ((g p).x ^ 2 + (g p).y ^ 2) ∧
          0 ≤ (gradient_descent Real.sqrt p0 a m t (recording g) []).1.final_grad_norm) ∧
      (∃ p, (gradient_descent_momentum Real.sqrt p0 a b m t (recording g)
            []).2.getLast? = some p ∧
          (gradient_descent_momentum Real.sqrt p0 a b m t (recording g)
            []).1.final_grad_norm = Real.sqrt ((g p).x ^ 2 + (g p).y ^ 2) ∧
          0 ≤ (gradient_descent_momentum Real.sqrt p0 a b m t (recording g)
            []).1.final_grad_norm) ∧
      (∃ p, (nesterov_momentum Real.sqrt p0 a b m t (recording g) []).2.getLast? = some p ∧
          (nesterov_momentum Real.sqrt p0 a b m t (recording g) []).1.final_grad_norm =
            Real.sqrt ((g p).x ^ 2 + (g p).y ^ 2) ∧
          0 ≤ (nesterov_momentum Real.sqrt p0 a b m t (recording g)
            []).1.final_grad_norm)) := by
  have key : ∀ {τ : Type} (probe : τ → Vec2 K) (update : τ → Vec2 K → τ) (t : τ),
      ∃ p, (drive probe update max_iters tol (recording gfn) max_iters
            (DriveVars.start t [])).env.getLast? = some p ∧
        sqrt (drive probe update max_iters tol (recording gfn) max_iters
            (DriveVars.start t [])).grad_norm_sq = sqrt (normSq (gfn p)) := by
    intro τ probe update t
    obtain ⟨p, hp, hn⟩ := drive_recording_last probe update max_iters tol gfn t hbudget
    exact ⟨p, hp, congrArg sqrt hn⟩
  rw [gradient_descent_eq_drive, momentum_eq_drive, nesterov_eq_drive]
  exact ⟨key _ _ _, key _ _ _, key _ _ _,
    fun p0 a b m t g hm => last_probe_norm_exact p0 a b m t g hm⟩

/-- Witness of the amended C10 in binary64: the quadratic bowl from `(2, 2)` with
`alpha = 1e308` and budget 3, a run that ends in NaN. -/
theorem reported_norm_is_last_probe_witness :
    0 < 3 ∧
    ∃ p, (gradient_descent Double.sqrt ⟨2, 2⟩ (Double.ofRatio (10 ^ 308) 1) 3
          (Double.ofRatio 1 10000) (recording grad_quadratic) []).2.getLast? = some p ∧
        (gradient_descent Double.sqrt ⟨2, 2⟩ (Double.ofRatio (10 ^ 308) 1) 3
          (Double.ofRatio 1 10000) (recording grad_quadratic) []).1.final_grad_norm =
          Double.sqrt (normSq (grad_quadratic p)) :=
  ⟨by decide,
    (reported_norm_is_last_probe Double.sqrt ⟨2, 2⟩ (Double.ofRatio (10 ^ 308) 1)
      (Double.ofRatio 9 10) 3 (Double.ofRatio 1 10000) grad_quadratic (by decide)).1⟩

/-- C16, amended. Outcome classification in `record`. In any arithmetic (exact or binary64),
for the result of each of the three optimizers, passed to `record` with the same `max_iters`
and `tol`: the label is "max iterations reached" exactly when `iterations = max_iters`; it is
"tolerance reached" exactly when `iterations < max_iters` and `final_grad_norm < tol`; and it
is "convergence" exactly when `iterations < max_iters` and not `final_grad_norm < tol`. In
exact real arithmetic with `tol > 0` the last case never occurs: the label is "tolerance
reached" exactly when `iterations < max_iters`. -/
theorem record_outcome_classification {K σ : Type} [Zero K] [Add K] [Sub K] [Mul K] [LT K]
    [∀ a b : K, Decidable (a < b)] (sqrt : K → K) (initial : Vec2 K) (alpha beta : K)
    (max_iters : Nat) (tol : K) (gradient : Vec2 K → σ → Vec2 K × σ) (env : σ) :
    (∀ res, res ∈ [(gradient_descent sqrt initial alpha max_iters tol gradient env).1,
        (gradient_descent_momentum sqrt initial alpha beta max_iters tol gradient env).1,
        (nesterov_momentum sqrt initial alpha beta max_iters tol gradient env).1] →
      (record_stopping res max_iters tol = "max iterations reached" ↔
        res.iterations = max_iters) ∧
      (record_stopping res max_iters tol = "tolerance reached" ↔
        res.iterations < max_iters ∧ res.final_grad_norm < tol) ∧
      (record_stopping res max_iters tol = "convergence" ↔
        res.iterations < max_iters ∧ ¬ res.final_grad_norm < tol)) ∧
    (∀ {ρ : Type} (p : Vec2 ℝ) (a b : ℝ) (m : Nat) (t : ℝ) (g : Vec2 ℝ → ρ → Vec2 ℝ × ρ)
        (e : ρ), 0 < t →
      ∀ res, res ∈ [(gradient_descent Real.sqrt p a m t g e).1,
          (gradient_descent_momentum Real.sqrt p a b m t g e).1,
          (nesterov_momentum Real.sqrt p a b m t g e).1] →
        (record_stopping res m t = "max iterations reached" ↔ res.iterations = m) ∧
        (record_stopping res m t = "tolerance reached" ↔ res.iterations < m) ∧
        record_stopping res m t ≠ "convergence") := by
  refine ⟨fun res hres => ?_, fun p a b m t g e ht => outcome_label_exact p a b m t g e ht⟩
  rw [gradient_descent_eq_drive, momentum_eq_drive, nesterov_eq_drive] at hres
  simp only [List.mem_cons, List.mem_singleton, List.not_mem_nil, or_false] at hres
  rcases hres with rfl | rfl | rfl
  all_goals
    exact record_stopping_reading _ max_iters tol (drive_iter_le _ _ _ _ _ _ _ (Nat.zero_le _))

/-- C18, amended. For plain descent and classical momentum in any arithmetic (exact or
binary64), under any observation of a pure gradient: when the run stops early
(`iterations < max_iters`), `final_grad_norm` is the square root, as the program computes it,
of the squared norm of the gradient at the returned `final_point`, and that squared norm is
`< tol * tol` as the loop computes them. In exact real arithmetic with `tol > 0` the norm of
the gradient at `final_point` is then `< tol`. -/
theorem early_stop_norm_at_final_point {K σ : Type} [Zero K] [Add K] [Sub K] [Mul K] [LT K]
    [∀ a b : K, Decidable (a < b)] (sqrt : K → K) (initial : Vec2 K) (alpha beta : K)
    (max_iters : Nat) (tol : K) (gfn : Vec2 K → Vec2 K) (obs : Vec2 K → σ → σ) (env : σ) :
    ((gradient_descent sqrt initial alpha max_iters tol (observed gfn obs)
        env).1.iterations < max_iters →
      (gradient_descent sqrt initial alpha max_iters tol (observed gfn obs)
          env).1.final_grad_norm =
        sqrt (normSq (gfn (gradient_descent sqrt initial alpha max_iters tol
          (observed gfn obs) env).1.final_point)) ∧
      normSq (gfn (gradient_descent sqrt initial alpha max_iters tol
          (observed gfn obs) env).1.final_point) < tol * tol) ∧
    ((gradient_descent_momentum sqrt initial alpha beta max_iters tol (observed gfn obs)
        env).1.iterations < max_iters →
      (gradient_descent_momentum sqrt initial alpha beta max_iters tol (observed gfn obs)
          env).1.final_grad_norm =
        sqrt (normSq (gfn (gradient_descent_momentum sqrt initial alpha beta
          max_iters tol (observed gfn obs) env).1.final_point)) ∧
      normSq (gfn (gradient_descent_momentum sqrt initial alpha beta
          max_iters tol (observed gfn obs) env).1.final_point) < tol * tol) ∧
    (∀ {ρ : Type} (p : Vec2 ℝ) (a b : ℝ) (m : Nat) (t : ℝ) (g : Vec2 ℝ → Vec2 ℝ)
        (o : Vec2 ℝ → ρ → ρ) (e : ρ), 0 < t →
      ((gradient_descent Real.sqrt p a m t (observed g o) e).1.iterations < m →
        (gradient_descent Real.sqrt p a m t (observed g o) e).1.final_grad_norm =
          Real.sqrt (normSq (g (gradient_descent Real.sqrt p a m t (observed g o)
            e).1.final_point)) ∧
        Real.sqrt (normSq (g (gradient_descent Real.sqrt p a m t (observed g o)
            e).1.final_point)) < t) ∧
      ((gradient_descent_momentum Real.sqrt p a b m t (observed g o) e).1.iterations < m →
        (gradient_descent_momentum Real.sqrt p a b m t (observed g o) e).1.final_grad_norm =
          Real.sqrt (normSq (g (gradient_descent_momentum Real.sqrt p a b m t (observed g o)
            e).1.final_point)) ∧
        Real.sqrt (normSq (g (gradient_descent_momentum Real.sqrt p a b m t (observed g o)
            e).1.final_point)) < t)) := by
  refine ⟨?_, ?_, fun p a b m t g o e ht => early_stop_exact p a b m t g o e ht⟩
  · rw [gradient_descent_eq_drive]
    intro h
    have e := drive_early_stop_norm id (descent_update alpha) max_iters tol gfn obs initial
      env h
    have t := drive_tolerance id (descent_update alpha) max_iters tol (observed gfn obs)
      max_iters (DriveVars.start initial env) (by simp [DriveVars.start]) h
    rw [e] at t
    exact ⟨congrArg sqrt e, t⟩
  · rw [momentum_eq_drive]
    intro h
    have e := drive_early_stop_norm Prod.fst (momentum_update alpha beta) max_iters tol gfn
      obs (initial, ⟨0, 0⟩) env h
    have t := drive_tolerance Prod.fst (momentum_update alpha beta) max_iters tol
      (observed gfn obs) max_iters (DriveVars.start (initial, ⟨0, 0⟩) env)
      (by simp [DriveVars.start]) h
    rw [e] at t
    exact ⟨congrArg sqrt e, t⟩

end Arithmetic

end optim
